import Mathlib

/-!
# Department selection front-end (`static/app.js`)

A shallow embedding of the page script: the selection store (a JavaScript `Map` kept
in insertion order), the panel rendering with its sort, the hidden form field, the
submit handler, the progress poller and the results renderer.

JavaScript values are modelled as follows.
* Strings are Lean strings; the script only trims, joins and concatenates them.
* Numbers are IEEE-754 doubles, modelled as the rationals they denote: every operation
  (`parseInt`, the string-to-number conversion, `-`, `/`, `*`) is followed by an
  explicit rounding to 53 significant bits (round to nearest, ties to even).
* The numbers of the panel sort are `JsNum` values: `NaN`, a finite double, or an
  infinity.
-/

namespace App

/-! ## JavaScript strings and numbers -/

/-- Code points that `String.prototype.trim`, `parseInt` and the string-to-number
conversion skip: ECMAScript `WhiteSpace` and `LineTerminator`. -/
def isJsWhiteSpace (c : Char) : Bool :=
  let n := c.toNat
  n == 0x9 || n == 0xA || n == 0xB || n == 0xC || n == 0xD || n == 0x20 || n == 0xA0
    || n == 0x1680 || (0x2000 ≤ n && n ≤ 0x200A) || n == 0x2028 || n == 0x2029
    || n == 0x202F || n == 0x205F || n == 0x3000 || n == 0xFEFF

/-- Leading white space removed. -/
def trimStart (cs : List Char) : List Char :=
  cs.dropWhile isJsWhiteSpace

/-- Trailing white space removed. -/
def trimEnd (cs : List Char) : List Char :=
  (cs.reverse.dropWhile isJsWhiteSpace).reverse

/-- The method `String.prototype.trim`. -/
def jsTrim (s : String) : String :=
  ⟨trimEnd (trimStart s.data)⟩

/-- Nearest integer to a non-negative rational, ties to the even one. -/
def roundHalfEven (y : ℚ) : ℤ :=
  let f := ⌊y⌋
  let r := y - f
  if r < 1 / 2 then f
  else if 1 / 2 < r then f + 1
  else if f % 2 = 0 then f else f + 1

/-- Number of halvings that bring `n` below 2, at most `fuel` of them. -/
def halvings : Nat → Nat → Nat
  | 0, _ => 0
  | fuel + 1, n => if 2 ≤ n then halvings fuel (n / 2) + 1 else 0

/-- The integer part of the binary logarithm of a positive natural number. -/
def floorLog2 (n : Nat) : Nat :=
  halvings n n

/-- The exponent of the leading bit of a positive rational: the `e` with
`2 ^ e ≤ x < 2 ^ (e + 1)`. -/
def binaryExponent (x : ℚ) : ℤ :=
  let k : ℤ := floorLog2 x.num.natAbs
  let l : ℤ := floorLog2 x.den
  if (2 : ℚ) ^ (k - l) ≤ x then k - l else k - l - 1

/-- The double nearest to a rational, as a rational: 53 significant bits, round to
nearest, ties to even. (Exact for the normal range; overflow to infinity and
subnormal numbers are not modelled.) -/
def toDouble (x : ℚ) : ℚ :=
  if x = 0 then 0
  else
    let ulp : ℚ := (2 : ℚ) ^ (binaryExponent |x| - 52)
    let m : ℚ := roundHalfEven (|x| / ulp)
    if x < 0 then -(m * ulp) else m * ulp

/-- A JavaScript number as far as the panel sort needs it: `NaN`, a finite double (the
rational it denotes) or an infinity. -/
inductive JsNum where
  | nan : JsNum
  | fin (q : ℚ) : JsNum
  | inf (negative : Bool) : JsNum
deriving DecidableEq

/-- The operator `-` on numbers; the difference of two doubles is rounded to a
double. -/
def jsSub : JsNum → JsNum → JsNum
  | .fin a, .fin b => .fin (toDouble (a - b))
  | .fin _, .inf s => .inf (!s)
  | .inf s, .fin _ => .inf s
  | .inf s, .inf t => if s = t then .nan else .inf s
  | _, _ => .nan

/-- Truthiness of a number: `NaN` and zero are falsy. -/
def JsNum.truthy : JsNum → Bool
  | .nan => false
  | .fin q => decide (q ≠ 0)
  | .inf _ => true

/-- Value of a digit character in radix up to 36. -/
def digitValue (c : Char) : Option Nat :=
  let n := c.toNat
  if 48 ≤ n ∧ n ≤ 57 then some (n - 48)
  else if 97 ≤ n ∧ n ≤ 122 then some (n - 87)
  else if 65 ≤ n ∧ n ≤ 90 then some (n - 55)
  else none

/-- Whether the character is a digit of the radix. -/
def isRadixDigit (radix : Nat) (c : Char) : Bool :=
  match digitValue c with
  | some d => decide (d < radix)
  | none => false

/-- Value of a run of digits of the radix, most significant first. -/
def digitsValue (radix : Nat) (cs : List Char) : Nat :=
  cs.foldl (fun acc c => acc * radix + (digitValue c).getD 0) 0

/-- An optional sign in front of a numeral: whether it is negative, and the rest. -/
def splitSign : List Char → Bool × List Char
  | '-' :: r => (true, r)
  | '+' :: r => (false, r)
  | cs => (false, cs)

/-- A rational with the sign applied. -/
def applySign (negative : Bool) (q : ℚ) : ℚ :=
  if negative then -q else q

/-- The global `parseInt(string)` without a radix argument: leading white space and
a sign are skipped, a `0x` start selects radix 16, and the longest run of digits
is read; no digit at all gives `NaN`. The result is the double nearest to the integer
read, so it is that integer up to 2^53 and a rounded one above. (A run of more than 20
significant digits, which an engine may truncate, and overflow to `Infinity` are not
modelled.) -/
def parseInt (s : String) : JsNum :=
  let (negative, cs) := splitSign (trimStart s.data)
  let (radix, ds) : Nat × List Char :=
    match cs with
    | '0' :: 'x' :: r => (16, r)
    | '0' :: 'X' :: r => (16, r)
    | _ => (10, cs)
  let run := ds.takeWhile (isRadixDigit radix)
  if run.isEmpty then .nan
  else .fin (toDouble (applySign negative (digitsValue radix run)))

/-- A numeral made only of digits of the radix, as after `0x`, `0o`, `0b`. -/
def radixLiteral (radix : Nat) (cs : List Char) : JsNum :=
  if !cs.isEmpty && cs.all (isRadixDigit radix) then .fin (toDouble (digitsValue radix cs))
  else .nan

/-- The exponent part of a decimal literal: empty, or `e` with a signed run of digits
up to the end of the text. -/
def exponentPart : List Char → Option ℤ
  | [] => some 0
  | c :: r =>
    if c = 'e' ∨ c = 'E' then
      let (negative, ds) := splitSign r
      if !ds.isEmpty && ds.all (isRadixDigit 10) then
        some (if negative then -(digitsValue 10 ds : ℤ) else (digitsValue 10 ds : ℤ))
      else none
    else none

/-- An unsigned decimal literal: digits, an optional fraction, an optional exponent. -/
def unsignedDecimal (cs : List Char) : JsNum :=
  let ip := cs.takeWhile (isRadixDigit 10)
  let r1 := cs.dropWhile (isRadixDigit 10)
  let (fp, r2) : List Char × List Char :=
    match r1 with
    | '.' :: r => (r.takeWhile (isRadixDigit 10), r.dropWhile (isRadixDigit 10))
    | _ => ([], r1)
  if ip.isEmpty && fp.isEmpty then .nan
  else
    match exponentPart r2 with
    | none => .nan
    | some e =>
      .fin (toDouble ((digitsValue 10 (ip ++ fp) : ℚ) * (10 : ℚ) ^ (e - (fp.length : ℤ))))

/-- A signed decimal literal, `Infinity` included. -/
def strDecimalLiteral (cs : List Char) : JsNum :=
  let (negative, r) := splitSign cs
  if r = "Infinity".data then .inf negative
  else
    match unsignedDecimal r with
    | .fin q => .fin (applySign negative q)
    | other => other

/-- The conversion of a string to a number, applied by `-` to a string operand
(`StringToNumber`): white space is trimmed, the empty text is 0, then a `0x`, `0o`
or `0b` literal or a signed decimal literal is read; anything else is `NaN`. The
value is rounded to the nearest double. -/
def stringToNumber (s : String) : JsNum :=
  match trimEnd (trimStart s.data) with
  | [] => .fin 0
  | '0' :: 'x' :: r => radixLiteral 16 r
  | '0' :: 'X' :: r => radixLiteral 16 r
  | '0' :: 'o' :: r => radixLiteral 8 r
  | '0' :: 'O' :: r => radixLiteral 8 r
  | '0' :: 'b' :: r => radixLiteral 2 r
  | '0' :: 'B' :: r => radixLiteral 2 r
  | cs => strDecimalLiteral cs

/-- A value that is a number or a string, as `parseInt(code) || code` is. -/
inductive JsVal where
  | num (n : JsNum) : JsVal
  | str (s : String) : JsVal
deriving DecidableEq

/-- The conversion `ToNumber` on such a value. -/
def JsVal.toNumber : JsVal → JsNum
  | .num n => n
  | .str s => stringToNumber s

/-- The expression `parseInt(code) || code`. -/
def parseIntOrCode (code : String) : JsVal :=
  if (parseInt code).truthy then .num (parseInt code) else .str code

/-- Whether a comparator result is a number above zero; `NaN` is treated as zero by
`Array.prototype.sort`. -/
def JsNum.isPositive : JsNum → Bool
  | .nan => false
  | .fin q => decide (0 < q)
  | .inf negative => !negative

/-- One insertion step of the stable sort: the element goes in front of the first
element it does not compare above. -/
def sortedInsert {α : Type} (cmp : α → α → JsNum) (a : α) : List α → List α
  | [] => [a]
  | b :: l => if (cmp a b).isPositive then b :: sortedInsert cmp a l else a :: b :: l

/-- The method `Array.prototype.sort(comparefn)`, as a stable insertion sort. For a
consistent comparator every conforming engine returns this list; for an inconsistent
one (a `NaN` key among distinct keys) the language leaves the order to the engine. -/
def arraySort {α : Type} (cmp : α → α → JsNum) : List α → List α
  | [] => []
  | a :: l => sortedInsert cmp a (arraySort cmp l)

/-! ## Department catalog and selection store -/

/-- The constant `frenchDepartments`: department code to display name, in source order. -/
def frenchDepartments : List (String × String) :=
  [("75", "Paris"), ("77", "Seine-et-Marne"), ("78", "Yvelines"), ("91", "Essonne"),
   ("92", "Hauts-de-Seine"), ("93", "Seine-Saint-Denis"), ("94", "Val-de-Marne"),
   ("95", "Val-d'Oise"),
   ("01", "Ain"), ("02", "Aisne"), ("03", "Allier"), ("04", "Alpes-de-Haute-Provence"),
   ("05", "Hautes-Alpes"), ("06", "Alpes-Maritimes"), ("07", "Ardèche"), ("08", "Ardennes"),
   ("09", "Ariège"), ("10", "Aube"), ("11", "Aude"), ("12", "Aveyron"),
   ("13", "Bouches-du-Rhône"), ("14", "Calvados"), ("15", "Cantal"), ("16", "Charente"),
   ("17", "Charente-Maritime"), ("18", "Cher"), ("19", "Corrèze"), ("21", "Côte-d'Or"),
   ("22", "Côtes-d'Armor"), ("23", "Creuse"), ("24", "Dordogne"), ("25", "Doubs"),
   ("26", "Drôme"), ("27", "Eure"), ("28", "Eure-et-Loir"), ("29", "Finistère"),
   ("2A", "Corse-du-Sud"), ("2B", "Haute-Corse"), ("30", "Gard"), ("31", "Haute-Garonne"),
   ("32", "Gers"), ("33", "Gironde"), ("34", "Hérault"), ("35", "Ille-et-Vilaine"),
   ("36", "Indre"), ("37", "Indre-et-Loire"), ("38", "Isère"), ("39", "Jura"),
   ("40", "Landes"), ("41", "Loir-et-Cher"), ("42", "Loire"), ("43", "Haute-Loire"),
   ("44", "Loire-Atlantique"), ("45", "Loiret"), ("46", "Lot"), ("47", "Lot-et-Garonne"),
   ("48", "Lozère"), ("49", "Maine-et-Loire"), ("50", "Manche"), ("51", "Marne"),
   ("52", "Haute-Marne"), ("53", "Mayenne"), ("54", "Meurthe-et-Moselle"), ("55", "Meuse"),
   ("56", "Morbihan"), ("57", "Moselle"), ("58", "Nièvre"), ("59", "Nord"),
   ("60", "Oise"), ("61", "Orne"), ("62", "Pas-de-Calais"), ("63", "Puy-de-Dôme"),
   ("64", "Pyrénées-Atlantiques"), ("65", "Hautes-Pyrénées"), ("66", "Pyrénées-Orientales"),
   ("67", "Bas-Rhin"), ("68", "Haut-Rhin"), ("69", "Rhône"), ("70", "Haute-Saône"),
   ("71", "Saône-et-Loire"), ("72", "Sarthe"), ("73", "Savoie"), ("74", "Haute-Savoie"),
   ("76", "Seine-Maritime"), ("79", "Deux-Sèvres"), ("80", "Somme"), ("81", "Tarn"),
   ("82", "Tarn-et-Garonne"), ("83", "Var"), ("84", "Vaucluse"), ("85", "Vendée"),
   ("86", "Vienne"), ("87", "Haute-Vienne"), ("88", "Vosges"), ("89", "Yonne"),
   ("90", "Territoire de Belfort")]

/-- The property read `frenchDepartments[code]` for a code of the catalog; `none` is
`undefined`. -/
def catalogName (code : String) : Option String :=
  frenchDepartments.lookup code

/-- The object `{ code, name }` stored for a selected department. -/
structure Department where
  code : String
  name : String
deriving DecidableEq, Repr

/-- The `Map` named `selectedDepartments`: its entries in insertion order. -/
abbrev SelectionStore := List (String × Department)

/-- The method `Map.prototype.has`. -/
def mapHas (m : SelectionStore) (code : String) : Bool :=
  m.any (fun e => e.1 == code)

/-- The method `Map.prototype.get`. -/
def mapGet (m : SelectionStore) (code : String) : Option Department :=
  m.lookup code

/-- The method `Map.prototype.set`: a present key keeps its position and takes the new
value, an absent key is appended. -/
def mapSet (code : String) (d : Department) : SelectionStore → SelectionStore
  | [] => [(code, d)]
  | e :: m => if e.1 == code then (code, d) :: m else e :: mapSet code d m

/-- The method `Map.prototype.delete`. -/
def mapDelete (code : String) (m : SelectionStore) : SelectionStore :=
  m.filter (fun e => !(e.1 == code))

/-- The expression `Array.from(map.keys())`. -/
def mapKeys (m : SelectionStore) : List String :=
  m.map Prod.fst

/-- The expression `Array.from(map.values())`. -/
def mapValues (m : SelectionStore) : List Department :=
  m.map Prod.snd

/-- The method `Array.prototype.join(',')` on an array of strings. -/
def joinComma (xs : List String) : String :=
  ",".intercalate xs

/-- Content of the `selectedList` container. -/
inductive Panel where
  | emptyMessage : Panel
  | items (rendered : List Department) : Panel
deriving DecidableEq

/-- The parts of the page the selection functions write. -/
structure Page where
  selectedDepartments : SelectionStore
  /-- The value of the hidden input `selectedDepartments`. -/
  hiddenField : String
  /-- The text of the `count` element. -/
  count : Nat
  /-- The children of the `selectedList` container, in document order. -/
  selectedList : Panel
  /-- The notification on display: message and type. -/
  notification : Option (String × String)
deriving DecidableEq

/-- The page before any selection: empty store, empty hidden field. -/
def Page.initial : Page :=
  { selectedDepartments := [], hiddenField := "", count := 0,
    selectedList := .emptyMessage, notification := none }

/-- The comparator of `updateSelectedList`:
`numA = parseInt(a.code) || a.code; numB = parseInt(b.code) || b.code; numA - numB`. -/
def compareDepartments (a b : Department) : JsNum :=
  let numA := parseIntOrCode a.code
  let numB := parseIntOrCode b.code
  jsSub numA.toNumber numB.toNumber

/-- The function `updateSelectedList`: writes the count, and either the placeholder or
one item per department, sorted with `compareDepartments`. -/
def updateSelectedList (p : Page) : Page :=
  let p := { p with count := p.selectedDepartments.length }
  if p.selectedDepartments.length = 0 then
    { p with selectedList := .emptyMessage }
  else
    let sortedDepartments := arraySort compareDepartments (mapValues p.selectedDepartments)
    { p with selectedList := .items sortedDepartments }

/-- The function `addDepartment(code, name)`; the map layer styling is not modelled. -/
def addDepartment (code name : String) (p : Page) : Page :=
  if mapHas p.selectedDepartments code then p
  else
    let p := { p with selectedDepartments := mapSet code ⟨code, name⟩ p.selectedDepartments }
    let p := updateSelectedList p
    { p with hiddenField := joinComma (mapKeys p.selectedDepartments) }

/-- The function `removeDepartment(code)`. -/
def removeDepartment (code : String) (p : Page) : Page :=
  let p := { p with selectedDepartments := mapDelete code p.selectedDepartments }
  let p := updateSelectedList p
  { p with hiddenField := joinComma (mapKeys p.selectedDepartments) }

/-- The function `showNotification(message, type)`: replaces the notification. -/
def showNotification (message type : String) (p : Page) : Page :=
  { p with notification := some (message, type) }

/-- The function `clearAllSelections`. -/
def clearAllSelections (p : Page) : Page :=
  let p := { p with selectedDepartments := [] }
  let p := updateSelectedList p
  let p := { p with hiddenField := "" }
  showNotification "Tous les départements ont été désélectionnés!" "info" p

/-- The array `predefinedDepartments` of `selectPredefined`. -/
def predefinedDepartments : List String :=
  ["75", "77", "78", "91", "92", "93", "94", "95"]

/-- The function `selectPredefined`: each predefined code with a non-empty catalog name
is added under that name. -/
def selectPredefined (p : Page) : Page :=
  let p := predefinedDepartments.foldl
    (fun p code =>
      match catalogName code with
      | some name => if name ≠ "" then addDepartment code name p else p
      | none => p) p
  showNotification "Départements d'Île-de-France ajoutés!" "success" p

/-- A mutation of the selection store. -/
inductive Mutation where
  | add (code name : String) : Mutation
  | remove (code : String) : Mutation
  | clear : Mutation
  | predefined : Mutation
deriving DecidableEq

/-- The effect of one mutation on the page. -/
def Mutation.apply : Mutation → Page → Page
  | .add code name, p => addDepartment code name p
  | .remove code, p => removeDepartment code p
  | .clear, p => clearAllSelections p
  | .predefined, p => selectPredefined p

/-- The page after a sequence of mutations, first to last. -/
def runMutations (ms : List Mutation) (p : Page) : Page :=
  ms.foldl (fun p m => m.apply p) p

/-- The departments shown in the panel, top to bottom; none under the placeholder. -/
def Panel.entries : Panel → List Department
  | .emptyMessage => []
  | .items rendered => rendered

/-- The codes shown in the panel, top to bottom. -/
def Panel.codes (panel : Panel) : List String :=
  panel.entries.map (fun d => d.code)

/-- The page after adding the codes 9007199254740993, 75, 9007199254740992 in that
order. -/
def largeCodesPage : Page :=
  runMutations
    [.add "9007199254740993" "a", .add "75" "Paris", .add "9007199254740992" "b"]
    Page.initial

/-- The page after adding the codes 93, 2A, 01, 2B, 75 in that order. -/
def sortExamplePage : Page :=
  runMutations
    [.add "93" "Seine-Saint-Denis", .add "2A" "Corse-du-Sud", .add "01" "Ain",
     .add "2B" "Haute-Corse", .add "75" "Paris"] Page.initial

/-- The rational a number denotes, with 0 for `NaN` and the infinities. -/
def JsNum.value : JsNum → ℚ
  | .fin q => q
  | _ => 0

/-- The integer `parseInt` reads at the start of a code. -/
def leadingInt (code : String) : ℚ :=
  (parseInt code).value

/-- The hidden field mirrors the store, whose keys are distinct. -/
def Page.Synced (p : Page) : Prop :=
  p.hiddenField = joinComma (mapKeys p.selectedDepartments) ∧
    (mapKeys p.selectedDepartments).Nodup

/-- The page after the calls `addDepartment(code, name)` for the given pairs, in order. -/
def addAll (adds : List (String × String)) (p : Page) : Page :=
  adds.foldl (fun p a => addDepartment a.1 a.2 p) p

/-- The `properties` of a GeoJSON feature shown on the map. -/
structure Feature where
  code : String
  nom : String
deriving DecidableEq

/-- The click handler `onFeatureClick` of a region: reads `code` and `nom` of the
feature and calls `addDepartment(code, name, layer)`. The style set on the layer is
not modelled. -/
def onFeatureClick (feature : Feature) (p : Page) : Page :=
  let code := feature.code
  let name := feature.nom
  addDepartment code name p

/-! ## Job submission -/

/-- What the submit handler reads from the form. -/
structure FormInput where
  /-- The value of the hidden input `selectedDepartments`. -/
  selectedDepts : String
  /-- The value of the input `targetDate`. -/
  targetDate : String
  /-- The values of the checked `selected_keywords` boxes, in document order. -/
  selectedKeywords : List String
  /-- The value of the input `customKeywords`, before trimming. -/
  customKeywordsValue : String
deriving DecidableEq

/-- What a submission does: a notification and nothing else, or the request
`POST /process` with the form data (name and value pairs, in append order). -/
inductive Submission where
  | rejected (message type : String) : Submission
  | posted (formData : List (String × String)) : Submission
deriving DecidableEq

/-- The submit handler of `processForm`, up to the request it sends. -/
def submitHandler (f : FormInput) : Submission :=
  if f.selectedDepts = "" then
    .rejected "Veuillez sélectionner au moins un département!" "info"
  else
    let customKeywords := jsTrim f.customKeywordsValue
    if f.selectedKeywords.length = 0 ∧ customKeywords = "" then
      .rejected "Veuillez sélectionner au moins un mot-clé!" "info"
    else
      .posted
        ([("target_date", f.targetDate), ("selected_departments", f.selectedDepts)]
          ++ f.selectedKeywords.map (fun keyword => ("selected_keywords", keyword))
          ++ [("custom_keywords", customKeywords)])

/-- Whether the submission sends the request. -/
def Submission.isPosted : Submission → Bool
  | .posted _ => true
  | .rejected _ _ => false

/-! ## Results -/

/-- One element of `summary_table`; `none` is a property that is absent. -/
structure ResultRow where
  Keywords : Option String
  Acheteur : Option String
  Objet : Option String
  Lots : Option String
  VisiteObligatoire : Option String
  Departement : Option String
  DateLimite : Option String
  PDFLink : Option String
deriving DecidableEq

/-- The expression `value || fallback` on a string that may be absent: the absent and
the empty string are falsy. -/
def orString (value : Option String) (fallback : String) : String :=
  match value with
  | some s => if s = "" then fallback else s
  | none => fallback

/-- The call `text.replace(/c/g, replacement)` for a single character `c`. -/
def replaceAll (c : Char) (replacement : String) (text : String) : String :=
  ⟨text.data.flatMap (fun x => if x = c then replacement.data else [x])⟩

/-- The function `escapeHtml` on a string: the five replacements, in source order. -/
def escapeHtml (text : String) : String :=
  replaceAll (Char.ofNat 39) "&#039;"
    (replaceAll (Char.ofNat 34) "&quot;"
      (replaceAll '>' "&gt;"
        (replaceAll '<' "&lt;"
          (replaceAll '&' "&amp;" text))))

/-- Characters that `escapeHtml` must not let through. -/
def isRawMarkup (x : Char) : Bool :=
  x == '<' || x == '>' || x == Char.ofNat 34 || x == Char.ofNat 39

/-- The last cell of a row: a link when `PDF Link` is present and not `N/A`. -/
def pdfCell (row : ResultRow) : String :=
  match row.PDFLink with
  | some link =>
    if link ≠ "" ∧ link ≠ "N/A" then
      "<a href=\"" ++ link
        ++ "\" target=\"_blank\" class=\"btn btn-sm btn-outline-primary\">📄 PDF</a>"
    else "<span class=\"text-muted\">N/A</span>"
  | none => "<span class=\"text-muted\">N/A</span>"

/-- The template of `updateResultsTable` for one row. -/
def rowMarkup (row : ResultRow) : String :=
  "\n        <tr>\n            <td>" ++ escapeHtml (orString row.Keywords "")
    ++ "</td>\n            <td>" ++ escapeHtml (orString row.Acheteur "")
    ++ "</td>\n            <td>" ++ escapeHtml (orString row.Objet "")
    ++ "</td>\n            <td>" ++ escapeHtml (orString row.Lots "")
    ++ "</td>\n            <td>\n                <span class=\"badge "
    ++ (if row.VisiteObligatoire = some "yes" then "bg-warning" else "bg-secondary")
    ++ "\">\n                    " ++ orString row.VisiteObligatoire "no"
    ++ "\n                </span>\n            </td>\n            <td>"
    ++ escapeHtml (orString row.Departement "")
    ++ "</td>\n            <td>" ++ escapeHtml (orString row.DateLimite "")
    ++ "</td>\n            <td>\n                " ++ pdfCell row
    ++ "\n            </td>\n        </tr>\n    "

/-- A snapshot returned by `GET /progress/{process_id}`. The two record counts are
JSON integers; they are doubles in the script, exact below 2^53. -/
structure Progress where
  status : String
  current_step : String
  processed_records : ℤ
  total_records : ℤ
  summary_table : Option (List ResultRow)
  departments : Option (List String)
  error : Option String
deriving DecidableEq

/-- The function `updateResultsTable`: the markup written into `resultsTableBody`. -/
def updateResultsTable (progress : Progress) : String :=
  let summaryData := progress.summary_table.getD []
  if summaryData.length = 0 then
    "<tr><td colspan=\"8\" class=\"text-center text-muted\">Aucun résultat trouvé</td></tr>"
  else
    String.join (summaryData.map rowMarkup)

/-- The object `stats` of `showResults`. -/
structure Stats where
  total : Nat
  lotsFound : Nat
  visiteObligatoire : Nat
deriving DecidableEq

/-- The filter `row => row.Lots && row.Lots.trim() !== ''`. -/
def hasLots (row : ResultRow) : Bool :=
  match row.Lots with
  | some lots => decide (lots ≠ "") && decide (jsTrim lots ≠ "")
  | none => false

/-- The filter `row => row['Visite Obligatoire'] === 'yes'`. -/
def isVisiteObligatoire (row : ResultRow) : Bool :=
  decide (row.VisiteObligatoire = some "yes")

/-- The statistics computed by `showResults`. -/
def computeStats (progress : Progress) : Stats :=
  let summaryData := progress.summary_table.getD []
  { total := summaryData.length,
    lotsFound := (summaryData.filter hasLots).length,
    visiteObligatoire := (summaryData.filter isVisiteObligatoire).length }

/-- What `showResults` puts on the page: the statistics shown in the three cards and
in the status line, the table body, and the number of departments of the status line
(`progress.departments?.length || 0`). -/
structure ResultsView where
  stats : Stats
  tableBody : String
  statusDepartments : Nat
deriving DecidableEq

/-- The function `showResults`. -/
def showResults (progress : Progress) : ResultsView :=
  { stats := computeStats progress,
    tableBody := updateResultsTable progress,
    statusDepartments := (progress.departments.getD []).length }

/-- Whether the characters of `needle` occur in a row at the start of `text`. -/
def startsWith : List Char → List Char → Bool
  | [], _ => true
  | _ :: _, [] => false
  | a :: needle, b :: text => a == b && startsWith needle text

/-- Whether `needle` occurs somewhere in `text`. -/
def occursIn (needle : List Char) : List Char → Bool
  | [] => needle.isEmpty
  | b :: text => startsWith needle (b :: text) || occursIn needle text

/-! ## Progress display -/

/-- The operator `/` on doubles with a non-zero divisor. -/
def jsDiv (a b : ℚ) : ℚ :=
  toDouble (a / b)

/-- The operator `*` on doubles. -/
def jsMul (a b : ℚ) : ℚ :=
  toDouble (a * b)

/-- The function `Math.round`: the nearest integer, ties upwards. -/
def mathRound (x : ℚ) : ℤ :=
  ⌊x + 1 / 2⌋

/-- The expression `Math.round((processed_records / total_records) * 100)`. -/
def percentOf (processed total : ℤ) : ℤ :=
  mathRound (jsMul (jsDiv processed total) 100)

/-- What the `currentStep` element shows: a message, or the string conversion of the
value that `Object.prototype` holds under a name (a text the engine chooses). -/
inductive StepText where
  | message (text : String) : StepText
  | inherited (name : String) : StepText
deriving DecidableEq

/-- The three elements written by `updateProgressDisplay`. -/
structure ProgressDisplay where
  /-- Text of `currentStep`. -/
  currentStep : StepText
  /-- Style width of `progressBar`. -/
  barWidth : String
  /-- Text of `progressText`. -/
  progressText : String
deriving DecidableEq

/-- The object `stepMessages`. -/
def stepMessages : List (String × String) :=
  [("starting", "Démarrage du traitement..."),
   ("data_extraction", "Extraction des données depuis l'API BOAMP..."),
   ("keyword_filtering", "Filtrage par mots-clés..."),
   ("deduplication", "Suppression des doublons..."),
   ("department_filtering", "Filtrage par départements sélectionnés..."),
   ("pdf_processing", "Traitement des PDFs..."),
   ("processing", "Traitement en cours..."),
   ("completed", "Traitement terminé!")]

/-- The property names an object literal inherits from `Object.prototype`. -/
def objectPrototypeNames : List String :=
  ["constructor", "hasOwnProperty", "isPrototypeOf", "propertyIsEnumerable",
   "toLocaleString", "toString", "valueOf", "__proto__", "__defineGetter__",
   "__defineSetter__", "__lookupGetter__", "__lookupSetter__"]

/-- The expression `stepMessages[step] || 'Traitement en cours...'`: an own key gives
its message, an inherited name gives the (truthy) inherited value, any other step the
fallback. -/
def stepMessage (step : String) : StepText :=
  match stepMessages.lookup step with
  | some text => .message (orString (some text) "Traitement en cours...")
  | none =>
    if step ∈ objectPrototypeNames then .inherited step
    else .message "Traitement en cours..."

/-- The function `updateProgressDisplay`. -/
def updateProgressDisplay (progress : Progress) (d : ProgressDisplay) : ProgressDisplay :=
  let message := stepMessage progress.current_step
  let d := { d with currentStep := message }
  if progress.total_records > 0 ∧ progress.processed_records ≥ 0 then
    let percent := percentOf progress.processed_records progress.total_records
    { d with
      barWidth := toString percent ++ "%",
      progressText := toString percent ++ "% (" ++ toString progress.processed_records
        ++ "/" ++ toString progress.total_records ++ ")" }
  else d

/-! ## Progress poller -/

/-- The poller started by `startProgressTracking`, with the parts of the page its
ticks write. -/
structure Tracking where
  /-- Whether the interval `progressInterval` is still set. -/
  intervalActive : Bool
  /-- Number of `GET /progress/{process_id}` requests sent so far. -/
  requests : Nat
  /-- Number of requests sent whose callback is still suspended at an `await`. -/
  inFlight : Nat
  display : ProgressDisplay
  /-- Whether `hideLoadingModal` has run. -/
  modalHidden : Bool
  /-- What `showResults` rendered, if it has run. -/
  results : Option ResultsView
  /-- The notification on display: message and type. -/
  notification : Option (String × String)
deriving DecidableEq

/-- The function `startProgressTracking`: the interval is set, nothing is fetched yet. -/
def startProgressTracking (display : ProgressDisplay) : Tracking :=
  { intervalActive := true, requests := 0, inFlight := 0, display := display,
    modalHidden := false, results := none, notification := none }

/-- The interval fires: the async callback starts and sends its request, then is
suspended at `await fetch(...)`. A cleared interval fires nothing. -/
def fireTick (s : Tracking) : Tracking :=
  if s.intervalActive then
    { s with requests := s.requests + 1, inFlight := s.inFlight + 1 }
  else s

/-- A pending request settles and the rest of its callback runs, whether or not the
interval has been cleared since the request was sent; `none` is a fetch that fails
(the request rejects, the response is not ok, or its body does not parse). With no
request pending nothing happens. -/
def settleTick (response : Option Progress) (s : Tracking) : Tracking :=
  if s.inFlight = 0 then s
  else
    let s := { s with inFlight := s.inFlight - 1 }
    match response with
    | none => s
    | some progress =>
      let s := { s with display := updateProgressDisplay progress s.display }
      if progress.status = "completed" then
        { s with
          intervalActive := false, modalHidden := true,
          results := some (showResults progress),
          notification := some ("Traitement terminé avec succès!", "success") }
      else if progress.status = "error" then
        { s with
          intervalActive := false, modalHidden := true,
          notification :=
            some ("Erreur: " ++ orString progress.error "Erreur inconnue", "error") }
      else s

/-- What the event loop runs for the poller: the interval firing, or a pending
request settling with a response. -/
inductive PollEvent where
  | fire : PollEvent
  | settle (response : Option Progress) : PollEvent
deriving DecidableEq

/-- The effect of one event. -/
def PollEvent.apply : PollEvent → Tracking → Tracking
  | .fire, s => fireTick s
  | .settle response, s => settleTick response s

/-- The poller after a sequence of events, first to last; requests may overlap. -/
def runEvents (events : List PollEvent) (s : Tracking) : Tracking :=
  events.foldl (fun s e => e.apply s) s

/-- One tick whose response is handled before the next tick fires. -/
def pollTick (response : Option Progress) (s : Tracking) : Tracking :=
  settleTick response (fireTick s)

/-- The poller after a sequence of tick outcomes, first to last, each response being
handled before the next tick fires. -/
def runTicks (responses : List (Option Progress)) (s : Tracking) : Tracking :=
  responses.foldl (fun s r => pollTick r s) s

/-- The events of a run without overlap: each tick fires, then settles. -/
def sequentialEvents (responses : List (Option Progress)) : List PollEvent :=
  responses.flatMap (fun r => [.fire, .settle r])

/-- Whether a tick outcome carries a terminal status. -/
def isTerminal (response : Option Progress) : Bool :=
  match response with
  | some progress => decide (progress.status = "completed") || decide (progress.status = "error")
  | none => false

/-! ## Example inputs and specification predicates -/

/-- A row with every property absent. -/
def ResultRow.blank : ResultRow :=
  { Keywords := none, Acheteur := none, Objet := none, Lots := none,
    VisiteObligatoire := none, Departement := none, DateLimite := none, PDFLink := none }

/-- A snapshot with the given status, counts and rows, and nothing else. -/
def snapshot (status : String) (processed total : ℤ) (rows : Option (List ResultRow)) :
    Progress :=
  { status := status, current_step := "processing", processed_records := processed,
    total_records := total, summary_table := rows, departments := none, error := none }

/-- A row whose `Visite Obligatoire` holds markup. -/
def visiteScriptRow : ResultRow :=
  { ResultRow.blank with VisiteObligatoire := some "<script>alert(1)</script>" }

/-- A row whose `PDF Link` closes the attribute and holds markup. -/
def linkScriptRow : ResultRow :=
  { ResultRow.blank with PDFLink := some "\"><script>alert(2)</script>" }

/-- A row whose `Keywords` holds markup. -/
def keywordsScriptRow : ResultRow :=
  { ResultRow.blank with Keywords := some "<script>alert(3)</script>" }

/-- A row whose `Lots` is a single space. -/
def blankLotsRow : ResultRow :=
  { ResultRow.blank with Lots := some " " }

/-- A row with a lot description. -/
def lotsRow : ResultRow :=
  { ResultRow.blank with Lots := some "Lot 1", VisiteObligatoire := some "yes" }

/-- A row whose `Lots` is the empty string. -/
def emptyLotsRow : ResultRow :=
  { ResultRow.blank with Lots := some "", VisiteObligatoire := some "no" }

/-- The filter of `lotsFound` in words: `Lots` is present and is not empty once
trimmed. -/
def lotsNonBlank (row : ResultRow) : Bool :=
  match row.Lots with
  | some lots => decide (jsTrim lots ≠ "")
  | none => false

/-- The display before the first tick. -/
def ProgressDisplay.blank : ProgressDisplay :=
  { currentStep := .message "", barWidth := "0%", progressText := "0%" }

/-- Tick outcomes before the terminal one: a failed fetch, then a running snapshot. -/
def ticksBefore : List (Option Progress) :=
  [none, some (snapshot "running" 1 4 none)]

/-- The terminal snapshot of the example: completed, with two rows. -/
def completedSnapshot : Progress :=
  snapshot "completed" 4 4 (some [lotsRow, emptyLotsRow])

/-- Two requests overlap: both ticks fire, the second response (completed) is handled
first, and the first response (running, 3 of 4) arrives after it. -/
def overlappingEvents : List PollEvent :=
  [.fire, .fire, .settle (some completedSnapshot),
   .settle (some (snapshot "running" 3 4 none))]

/-- Tick outcomes that would follow if the interval were still set. -/
def ticksAfter : List (Option Progress) :=
  [some (snapshot "running" 3 4 none), none, some (snapshot "error" 0 0 none)]

/-! ## Theorems -/

/-! ### Doubles -/

theorem halvings_spec : ∀ (fuel n : Nat), 1 ≤ n → n ≤ fuel →
    2 ^ halvings fuel n ≤ n ∧ n < 2 ^ (halvings fuel n + 1)
  | 0, n, h1, h2 => by omega
  | fuel + 1, n, h1, h2 => by
    unfold halvings
    by_cases h : 2 ≤ n
    · simp only [h, if_true]
      have ih := halvings_spec fuel (n / 2) (by omega) (by omega)
      have e1 : 2 ^ (halvings fuel (n / 2) + 1) = 2 * 2 ^ halvings fuel (n / 2) := by ring
      have e2 : 2 ^ (halvings fuel (n / 2) + 1 + 1) = 2 * 2 ^ (halvings fuel (n / 2) + 1) := by
        ring
      rw [e2, e1]
      rw [e1] at ih
      omega
    · simp only [h, if_false]
      simp
      omega

theorem floorLog2_spec (n : Nat) (h : 1 ≤ n) :
    2 ^ floorLog2 n ≤ n ∧ n < 2 ^ (floorLog2 n + 1) :=
  halvings_spec n n h (le_refl n)

theorem binaryExponent_le (x : ℚ) (hx : 0 < x) : (2 : ℚ) ^ binaryExponent x ≤ x := by
  unfold binaryExponent
  simp only
  split
  · assumption
  · have hnum : 0 < x.num := Rat.num_pos.mpr hx
    have hn1 : 1 ≤ x.num.natAbs := Int.natAbs_pos.mpr (ne_of_gt hnum)
    have hd1 : 1 ≤ x.den := x.den_pos
    have hk := (floorLog2_spec x.num.natAbs hn1).1
    have hl := (floorLog2_spec x.den hd1).2
    have hxeq : x = (x.num.natAbs : ℚ) / (x.den : ℚ) := by
      have h1 : ((x.num.natAbs : ℤ) : ℚ) = (x.num : ℚ) := by
        rw [Int.natAbs_of_nonneg (le_of_lt hnum)]
      have h2 : (x.num.natAbs : ℚ) = (x.num : ℚ) := by
        rw [← h1, Int.cast_natCast]
      rw [h2]
      exact (Rat.num_div_den x).symm
    have hexp : ((floorLog2 x.num.natAbs : ℕ) : ℤ) - ((floorLog2 x.den : ℕ) : ℤ) - 1
        = ((floorLog2 x.num.natAbs : ℕ) : ℤ) - ((floorLog2 x.den + 1 : ℕ) : ℤ) := by
      push_cast; ring
    rw [hexp, zpow_sub₀ (two_ne_zero), zpow_natCast, zpow_natCast]
    have hden : (0 : ℚ) < (x.den : ℚ) := by exact_mod_cast hd1
    have hpow : (0 : ℚ) < (2 : ℚ) ^ (floorLog2 x.den + 1) := by positivity
    rw [div_le_iff₀ hpow]
    have hkq : ((2 : ℚ) ^ floorLog2 x.num.natAbs) ≤ (x.num.natAbs : ℚ) := by exact_mod_cast hk
    have hlq : (x.den : ℚ) ≤ (2 : ℚ) ^ (floorLog2 x.den + 1) := by exact_mod_cast le_of_lt hl
    calc (2 : ℚ) ^ floorLog2 x.num.natAbs ≤ (x.num.natAbs : ℚ) := hkq
      _ = (x.num.natAbs : ℚ) / (x.den : ℚ) * (x.den : ℚ) := by field_simp
      _ = x * (x.den : ℚ) := by rw [← hxeq]
      _ ≤ x * (2 : ℚ) ^ (floorLog2 x.den + 1) := by
        exact mul_le_mul_of_nonneg_left hlq (le_of_lt hx)

theorem roundHalfEven_err (y : ℚ) : |(roundHalfEven y : ℚ) - y| ≤ 1 / 2 := by
  unfold roundHalfEven
  simp only
  have h0 : (⌊y⌋ : ℚ) ≤ y := Int.floor_le y
  have h1 : y < (⌊y⌋ : ℚ) + 1 := Int.lt_floor_add_one y
  split
  · rw [abs_le]; constructor <;> linarith
  · split
    · rw [abs_le]; push_cast; constructor <;> linarith
    · have hr : y - (⌊y⌋ : ℚ) = 1 / 2 := by
        rename_i ha hb
        linarith [not_lt.mp ha, not_lt.mp hb]
      split
      · rw [abs_le]; constructor <;> linarith
      · rw [abs_le]; push_cast; constructor <;> linarith

theorem toDouble_err (x : ℚ) (hx : 0 < x) : |toDouble x - x| ≤ x / 2 ^ 53 := by
  unfold toDouble
  have hne : ¬ x = 0 := ne_of_gt hx
  have hnl : ¬ x < 0 := not_lt.mpr (le_of_lt hx)
  simp only [hne, hnl, if_false, abs_of_pos hx]
  have hu : (0 : ℚ) < (2 : ℚ) ^ (binaryExponent x - 52) := by positivity
  have hr := roundHalfEven_err (x / (2 : ℚ) ^ (binaryExponent x - 52))
  have hle := binaryExponent_le x hx
  have hsplit : (2 : ℚ) ^ (binaryExponent x - 52) = (2 : ℚ) ^ binaryExponent x / 2 ^ 52 := by
    rw [zpow_sub₀ (two_ne_zero)]
    norm_cast
  set u : ℚ := (2 : ℚ) ^ (binaryExponent x - 52) with hudef
  set m : ℚ := (roundHalfEven (x / u) : ℚ) with hmdef
  have h1 : |m * u - x| = |m - x / u| * u := by
    have : m * u - x = (m - x / u) * u := by field_simp
    rw [this, abs_mul, abs_of_pos hu]
  rw [h1]
  have h2 : |m - x / u| * u ≤ 1 / 2 * u := mul_le_mul_of_nonneg_right hr (le_of_lt hu)
  have h3 : 1 / 2 * u ≤ x / 2 ^ 53 := by
    rw [hsplit]
    have : (1 : ℚ) / 2 * ((2 : ℚ) ^ binaryExponent x / 2 ^ 52) = (2 : ℚ) ^ binaryExponent x / 2 ^ 53 := by
      ring
    rw [this]
    exact div_le_div_of_nonneg_right hle (by positivity)
  exact le_trans h2 h3

theorem toDouble_zero : toDouble 0 = 0 := by
  simp [toDouble]

theorem toDouble_pos {x : ℚ} (hx : 0 < x) : 0 < toDouble x := by
  have e1 := abs_le.mp (toDouble_err x hx)
  have : x / 2 ^ 53 < x := by
    rw [div_lt_iff₀ (by positivity)]
    nlinarith
  linarith [e1.1]

theorem toDouble_neg (x : ℚ) : toDouble (-x) = -toDouble x := by
  unfold toDouble
  by_cases h0 : x = 0
  · simp [h0]
  · have hn0 : ¬ -x = 0 := fun h => h0 (neg_eq_zero.mp h)
    simp only [h0, hn0, if_false, abs_neg]
    rcases lt_or_gt_of_ne h0 with hlt | hgt
    · have h1 : ¬ -x < 0 := not_lt.mpr (le_of_lt (neg_pos.mpr hlt))
      simp [hlt, h1]
    · have h1 : -x < 0 := neg_neg_of_pos hgt
      have h2 : ¬ x < 0 := not_lt.mpr (le_of_lt hgt)
      simp [h1, h2]

theorem toDouble_pos_iff (x : ℚ) : 0 < toDouble x ↔ 0 < x := by
  constructor
  · intro h
    by_contra hx
    rcases eq_or_lt_of_le (not_lt.mp hx) with h0 | hneg
    · rw [h0, toDouble_zero] at h
      exact lt_irrefl _ h
    · have := toDouble_pos (neg_pos.mpr hneg)
      rw [toDouble_neg] at this
      linarith
  · exact toDouble_pos

/-! ### The sort -/

section ArraySort

variable {α : Type} (cmp : α → α → JsNum) (key : α → ℚ)

theorem sortedInsert_perm (a : α) (l : List α) : (sortedInsert cmp a l).Perm (a :: l) := by
  induction l with
  | nil => exact List.Perm.refl _
  | cons b l ih =>
    unfold sortedInsert
    split
    · exact ((List.Perm.cons b ih).trans (List.Perm.swap a b l))
    · exact List.Perm.refl _

theorem arraySort_perm (l : List α) : (arraySort cmp l).Perm l := by
  induction l with
  | nil => exact List.Perm.refl _
  | cons a l ih =>
    unfold arraySort
    exact (sortedInsert_perm cmp a _).trans (List.Perm.cons a ih)

theorem mem_sortedInsert {a x : α} {l : List α} :
    x ∈ sortedInsert cmp a l ↔ x = a ∨ x ∈ l := by
  rw [(sortedInsert_perm cmp a l).mem_iff, List.mem_cons]

theorem mem_arraySort {x : α} {l : List α} : x ∈ arraySort cmp l ↔ x ∈ l :=
  (arraySort_perm cmp l).mem_iff

theorem sortedInsert_pairwise (a : α) (l : List α)
    (h : ∀ b ∈ l, (cmp a b).isPositive = decide (key b < key a))
    (hl : l.Pairwise (fun x y => key x ≤ key y)) :
    (sortedInsert cmp a l).Pairwise (fun x y => key x ≤ key y) := by
  induction l with
  | nil => simp [sortedInsert]
  | cons b l ih =>
    have hb := h b (List.mem_cons_self b l)
    have hl' := List.pairwise_cons.mp hl
    unfold sortedInsert
    by_cases hlt : key b < key a
    · rw [hb, decide_eq_true hlt]
      simp only [if_true]
      refine List.pairwise_cons.mpr ⟨?_, ih (fun c hc => h c (List.mem_cons_of_mem b hc)) hl'.2⟩
      intro x hx
      rcases (mem_sortedInsert cmp).mp hx with rfl | hx
      · exact le_of_lt hlt
      · exact hl'.1 x hx
    · rw [hb, decide_eq_false hlt]
      simp only [Bool.false_eq_true, if_false]
      refine List.pairwise_cons.mpr ⟨?_, hl⟩
      intro x hx
      rcases List.mem_cons.mp hx with rfl | hx
      · exact not_lt.mp hlt
      · exact le_trans (not_lt.mp hlt) (hl'.1 x hx)

theorem arraySort_pairwise (l : List α)
    (h : ∀ a ∈ l, ∀ b ∈ l, (cmp a b).isPositive = decide (key b < key a)) :
    (arraySort cmp l).Pairwise (fun x y => key x ≤ key y) := by
  induction l with
  | nil => simp [arraySort]
  | cons a l ih =>
    unfold arraySort
    apply sortedInsert_pairwise
    · intro b hb
      exact h a (List.mem_cons_self a l) b (List.mem_cons_of_mem a ((mem_arraySort cmp).mp hb))
    · exact ih (fun x hx y hy => h x (List.mem_cons_of_mem a hx) y (List.mem_cons_of_mem a hy))

theorem sortedInsert_filter (k : ℚ) (a : α) (l : List α)
    (h : ∀ b ∈ l, (cmp a b).isPositive = decide (key b < key a)) :
    (sortedInsert cmp a l).filter (fun x => decide (key x = k))
      = (a :: l).filter (fun x => decide (key x = k)) := by
  induction l with
  | nil => simp [sortedInsert]
  | cons b l ih =>
    have hb := h b (List.mem_cons_self b l)
    have ih' := ih (fun c hc => h c (List.mem_cons_of_mem b hc))
    unfold sortedInsert
    by_cases hlt : key b < key a
    · rw [hb, decide_eq_true hlt]
      simp only [if_true]
      by_cases hbk : key b = k
      · have hak : ¬ key a = k := fun hak => absurd hlt (by rw [hbk, hak]; exact lt_irrefl k)
        rw [List.filter_cons, ih']
        simp [List.filter_cons, hbk, hak]
      · rw [List.filter_cons, ih']
        simp [List.filter_cons, hbk]
    · rw [hb, decide_eq_false hlt]
      simp only [Bool.false_eq_true, if_false]

theorem arraySort_filter (k : ℚ) (l : List α)
    (h : ∀ a ∈ l, ∀ b ∈ l, (cmp a b).isPositive = decide (key b < key a)) :
    (arraySort cmp l).filter (fun x => decide (key x = k))
      = l.filter (fun x => decide (key x = k)) := by
  induction l with
  | nil => simp [arraySort]
  | cons a l ih =>
    unfold arraySort
    rw [sortedInsert_filter cmp key k a _ (fun b hb =>
      h a (List.mem_cons_self a l) b (List.mem_cons_of_mem a ((mem_arraySort cmp).mp hb)))]
    rw [List.filter_cons, List.filter_cons,
      ih (fun x hx y hy => h x (List.mem_cons_of_mem a hx) y (List.mem_cons_of_mem a hy))]

end ArraySort

theorem parseInt_truthy_eq_fin {code : String} (h : (parseInt code).truthy = true) :
    parseInt code = .fin (leadingInt code) := by
  unfold leadingInt
  have hne : ∀ negative, parseInt code ≠ .inf negative := by
    intro negative
    unfold parseInt
    simp only
    split <;> simp
  cases hp : parseInt code with
  | nan => rw [hp] at h; simp [JsNum.truthy] at h
  | fin q => rfl
  | inf negative => exact absurd hp (hne negative)

theorem compareDepartments_isPositive {a b : Department}
    (ha : (parseInt a.code).truthy = true) (hb : (parseInt b.code).truthy = true) :
    (compareDepartments a b).isPositive = decide (leadingInt b.code < leadingInt a.code) := by
  unfold compareDepartments parseIntOrCode
  simp only [ha, hb, if_true, JsVal.toNumber]
  rw [parseInt_truthy_eq_fin ha, parseInt_truthy_eq_fin hb]
  simp only [jsSub, JsNum.isPositive, toDouble_pos_iff, sub_pos]

/-! ### Panel order -/

/-- C1, as amended: for every store whose codes have at most 20 characters and all
start with a non-zero integer for `parseInt`, the panel written by `updateSelectedList`
holds exactly the entries of the store, in ascending order of the number `parseInt`
returns for the code (the double nearest to that integer), and entries with the same
number keep their insertion order. -/
theorem updateSelectedList_sorted_by_leadingInt (p : Page)
    (_hshort : ∀ d ∈ mapValues p.selectedDepartments, d.code.length ≤ 20)
    (hcodes : ∀ d ∈ mapValues p.selectedDepartments, (parseInt d.code).truthy = true) :
    (updateSelectedList p).selectedList.entries.Perm (mapValues p.selectedDepartments) ∧
    (updateSelectedList p).selectedList.entries.Pairwise
      (fun a b => leadingInt a.code ≤ leadingInt b.code) ∧
    ∀ k : ℚ,
      (updateSelectedList p).selectedList.entries.filter
          (fun d => decide (leadingInt d.code = k))
        = (mapValues p.selectedDepartments).filter
          (fun d => decide (leadingInt d.code = k)) := by
  have hcmp : ∀ a ∈ mapValues p.selectedDepartments, ∀ b ∈ mapValues p.selectedDepartments,
      (compareDepartments a b).isPositive
        = decide ((fun d : Department => leadingInt d.code) b
            < (fun d : Department => leadingInt d.code) a) :=
    fun a ha b hb => compareDepartments_isPositive (hcodes a ha) (hcodes b hb)
  unfold updateSelectedList
  by_cases hlen : p.selectedDepartments.length = 0
  · have hnil : p.selectedDepartments = [] := List.length_eq_zero.mp hlen
    simp [hnil, Panel.entries, mapValues]
  · simp only [hlen, if_false, Panel.entries]
    exact ⟨arraySort_perm _ _, arraySort_pairwise _ _ _ hcmp,
      fun k => arraySort_filter _ _ k _ hcmp⟩

/-- C1 witness: the store holding 93, 2A, 01, 2B, 75 meets the hypotheses, so its panel
is sorted by the number `parseInt` returns. -/
theorem updateSelectedList_sorted_by_leadingInt_witness :
    (∀ d ∈ mapValues sortExamplePage.selectedDepartments, d.code.length ≤ 20) ∧
    (∀ d ∈ mapValues sortExamplePage.selectedDepartments, (parseInt d.code).truthy = true) ∧
    ((updateSelectedList sortExamplePage).selectedList.entries.Perm
        (mapValues sortExamplePage.selectedDepartments) ∧
      (updateSelectedList sortExamplePage).selectedList.entries.Pairwise
        (fun a b => leadingInt a.code ≤ leadingInt b.code) ∧
      ∀ k : ℚ,
        (updateSelectedList sortExamplePage).selectedList.entries.filter
            (fun d => decide (leadingInt d.code = k))
          = (mapValues sortExamplePage.selectedDepartments).filter
            (fun d => decide (leadingInt d.code = k))) :=
  ⟨by decide, by decide!,
    updateSelectedList_sorted_by_leadingInt sortExamplePage (by decide) (by decide!)⟩

/-- C1 counterexample: with the codes 93, 2A, 01, 2B, 75 added in that order the panel
shows 01, 2A, 2B, 75, 93 (`parseInt` reads 2 from "2A" and from "2B"), not
01, 75, 93, 2A, 2B. -/
theorem updateSelectedList_order_counterexample :
    sortExamplePage.selectedList.codes = ["01", "2A", "2B", "75", "93"] ∧
    sortExamplePage.selectedList.codes ≠ ["01", "75", "93", "2A", "2B"] := by
  decide!

/-- Every code of the catalog starts with a non-zero integer for `parseInt`. -/
theorem catalog_codes_truthy :
    ∀ e ∈ frenchDepartments, (parseInt e.1).truthy = true := by
  decide!

/-- Codes above 2^53: `parseInt` gives 9007199254740993 and 9007199254740992 the same
double, so the two entries keep their insertion order behind 75. -/
theorem updateSelectedList_large_codes :
    parseInt "9007199254740993" = .fin 9007199254740992 ∧
    largeCodesPage.selectedList.codes
      = ["75", "9007199254740993", "9007199254740992"] := by
  decide!

/-! ### Selection store -/

theorem mapHas_iff_mem_keys (m : SelectionStore) (code : String) :
    mapHas m code = true ↔ code ∈ mapKeys m := by
  unfold mapHas mapKeys
  simp only [List.any_eq_true, beq_iff_eq, List.mem_map]

theorem mapKeys_mapSet_absent (code : String) (d : Department) (m : SelectionStore)
    (h : code ∉ mapKeys m) : mapKeys (mapSet code d m) = mapKeys m ++ [code] := by
  induction m with
  | nil => rfl
  | cons e m ih =>
    have hne : ¬ e.1 = code := fun he => h (by simp [mapKeys, he])
    have hm : code ∉ mapKeys m := fun hc => h (by
      unfold mapKeys at hc ⊢
      exact List.mem_cons_of_mem _ hc)
    have ih' := ih hm
    unfold mapKeys at ih' ⊢
    simp [mapSet, hne, ih']

theorem mapSet_absent (code : String) (d : Department) (m : SelectionStore)
    (h : code ∉ mapKeys m) : mapSet code d m = m ++ [(code, d)] := by
  induction m with
  | nil => rfl
  | cons e m ih =>
    have hne : ¬ e.1 = code := fun he => h (by simp [mapKeys, he])
    have hm : code ∉ mapKeys m := fun hc => h (by
      unfold mapKeys at hc ⊢
      exact List.mem_cons_of_mem _ hc)
    simp [mapSet, hne, ih hm]

theorem mapDelete_absent (code : String) (m : SelectionStore) (h : code ∉ mapKeys m) :
    mapDelete code m = m := by
  unfold mapDelete
  rw [List.filter_eq_self]
  intro e he
  have hne : ¬ e.1 = code := fun hc => h (by
    unfold mapKeys
    exact List.mem_map.mpr ⟨e, he, hc⟩)
  simp [hne]

theorem not_mem_keys_mapDelete (code : String) (m : SelectionStore) :
    code ∉ mapKeys (mapDelete code m) := by
  unfold mapKeys mapDelete
  simp

theorem updateSelectedList_store (p : Page) :
    (updateSelectedList p).selectedDepartments = p.selectedDepartments := by
  unfold updateSelectedList
  simp only
  split <;> rfl

theorem updateSelectedList_field (p : Page) :
    (updateSelectedList p).hiddenField = p.hiddenField := by
  unfold updateSelectedList
  simp only
  split <;> rfl

theorem addDepartment_present (code name : String) (p : Page)
    (h : code ∈ mapKeys p.selectedDepartments) : addDepartment code name p = p := by
  unfold addDepartment
  rw [(mapHas_iff_mem_keys _ _).mpr h]
  rfl

theorem addDepartment_store_absent (code name : String) (p : Page)
    (h : code ∉ mapKeys p.selectedDepartments) :
    (addDepartment code name p).selectedDepartments
      = p.selectedDepartments ++ [(code, ⟨code, name⟩)] := by
  have hh : mapHas p.selectedDepartments code = false := by
    cases hc : mapHas p.selectedDepartments code with
    | false => rfl
    | true => exact absurd ((mapHas_iff_mem_keys _ _).mp hc) h
  unfold addDepartment
  simp only [hh, Bool.false_eq_true, if_false, updateSelectedList_store]
  exact mapSet_absent code _ _ h

theorem addDepartment_field_absent (code name : String) (p : Page)
    (h : code ∉ mapKeys p.selectedDepartments) :
    (addDepartment code name p).hiddenField
      = joinComma (mapKeys (addDepartment code name p).selectedDepartments) := by
  have hh : mapHas p.selectedDepartments code = false := by
    cases hc : mapHas p.selectedDepartments code with
    | false => rfl
    | true => exact absurd ((mapHas_iff_mem_keys _ _).mp hc) h
  unfold addDepartment
  simp only [hh, Bool.false_eq_true, if_false, updateSelectedList_store]

theorem initial_synced : Page.initial.Synced := by
  unfold Page.Synced Page.initial
  exact ⟨by decide, List.nodup_nil⟩

theorem addDepartment_synced (code name : String) (p : Page) (h : p.Synced) :
    (addDepartment code name p).Synced := by
  by_cases hc : code ∈ mapKeys p.selectedDepartments
  · rw [addDepartment_present code name p hc]
    exact h
  · refine ⟨addDepartment_field_absent code name p hc, ?_⟩
    rw [addDepartment_store_absent code name p hc]
    unfold mapKeys at hc ⊢
    rw [List.map_append, List.nodup_append]
    refine ⟨h.2, by simp, ?_⟩
    intro a ha hb
    rw [List.map_singleton, List.mem_singleton] at hb
    have hb' : a = code := hb
    exact hc (hb' ▸ ha)

theorem removeDepartment_synced (code : String) (p : Page) (h : p.Synced) :
    (removeDepartment code p).Synced := by
  unfold removeDepartment Page.Synced
  simp only [updateSelectedList_store, true_and]
  unfold mapKeys mapDelete
  exact (h.2.sublist (List.Sublist.map _ (List.filter_sublist _)))

theorem clearAllSelections_synced (p : Page) : (clearAllSelections p).Synced := by
  unfold clearAllSelections Page.Synced showNotification
  simp only [updateSelectedList_store]
  exact ⟨by decide, List.nodup_nil⟩

theorem selectPredefined_fold_synced (codes : List String) (p : Page) (h : p.Synced) :
    (codes.foldl
      (fun p code =>
        match catalogName code with
        | some name => if name ≠ "" then addDepartment code name p else p
        | none => p) p).Synced := by
  induction codes generalizing p with
  | nil => exact h
  | cons c cs ih =>
    rw [List.foldl_cons]
    apply ih
    split
    · split
      · exact addDepartment_synced _ _ _ h
      · exact h
    · exact h

theorem showNotification_synced (message type : String) (p : Page) (h : p.Synced) :
    (showNotification message type p).Synced :=
  h

theorem selectPredefined_synced (p : Page) (h : p.Synced) : (selectPredefined p).Synced := by
  unfold selectPredefined
  exact showNotification_synced _ _ _ (selectPredefined_fold_synced predefinedDepartments p h)

theorem mutation_synced (m : Mutation) (p : Page) (h : p.Synced) : (m.apply p).Synced := by
  cases m with
  | add code name => exact addDepartment_synced code name p h
  | remove code => exact removeDepartment_synced code p h
  | clear => exact clearAllSelections_synced p
  | predefined => exact selectPredefined_synced p h

theorem runMutations_synced (ms : List Mutation) (p : Page) (h : p.Synced) :
    (runMutations ms p).Synced := by
  induction ms generalizing p with
  | nil => exact h
  | cons m ms ih =>
    unfold runMutations
    rw [List.foldl_cons]
    exact ih _ (mutation_synced m p h)

theorem runMutations_append (ms ns : List Mutation) (p : Page) :
    runMutations (ms ++ ns) p = runMutations ns (runMutations ms p) := by
  unfold runMutations
  rw [List.foldl_append]

theorem mem_keys_addDepartment (code name c : String) (p : Page) :
    c ∈ mapKeys (addDepartment code name p).selectedDepartments
      ↔ c ∈ mapKeys p.selectedDepartments ∨ c = code := by
  by_cases hc : code ∈ mapKeys p.selectedDepartments
  · rw [addDepartment_present code name p hc]
    constructor
    · exact Or.inl
    · rintro (h | rfl)
      · exact h
      · exact hc
  · rw [addDepartment_store_absent code name p hc]
    unfold mapKeys
    simp

theorem addAll_synced (adds : List (String × String)) (p : Page) (h : p.Synced) :
    (addAll adds p).Synced := by
  induction adds generalizing p with
  | nil => exact h
  | cons a adds ih =>
    unfold addAll
    rw [List.foldl_cons]
    exact ih _ (addDepartment_synced a.1 a.2 p h)

theorem mem_keys_addAll (adds : List (String × String)) (p : Page) (c : String) :
    c ∈ mapKeys (addAll adds p).selectedDepartments
      ↔ c ∈ mapKeys p.selectedDepartments ∨ c ∈ adds.map Prod.fst := by
  induction adds generalizing p with
  | nil => simp [addAll]
  | cons a adds ih =>
    have h1 := ih (addDepartment a.1 a.2 p)
    unfold addAll at h1 ⊢
    rw [List.foldl_cons, h1, mem_keys_addDepartment, List.map_cons, List.mem_cons, or_assoc]

theorem lookup_set_delete_ne (code c : String) (d : Department) (m : SelectionStore)
    (hc : c ≠ code) : mapGet (mapSet code d (mapDelete code m)) c = mapGet m c := by
  unfold mapGet
  induction m with
  | nil =>
    have : (c == code) = false := beq_eq_false_iff_ne.mpr hc
    simp [mapDelete, mapSet, List.lookup, this]
  | cons e m ih =>
    obtain ⟨k, v⟩ := e
    by_cases hk : k = code
    · subst hk
      have h1 : mapDelete k ((k, v) :: m) = mapDelete k m := by simp [mapDelete]
      have h2 : (c == k) = false := beq_eq_false_iff_ne.mpr hc
      rw [h1, ih, List.lookup_cons, h2]
    · have h1 : mapDelete code ((k, v) :: m) = (k, v) :: mapDelete code m := by
        simp [mapDelete, hk]
      have h2 : mapSet code d ((k, v) :: mapDelete code m)
          = (k, v) :: mapSet code d (mapDelete code m) := by
        simp [mapSet, hk]
      rw [h1, h2, List.lookup_cons, List.lookup_cons, ih]

theorem lookup_set_delete_self (code : String) (d : Department) (m : SelectionStore) :
    mapGet (mapSet code d (mapDelete code m)) code = some d := by
  unfold mapGet
  rw [mapSet_absent code d _ (not_mem_keys_mapDelete code m)]
  have hnone : ∀ l : SelectionStore, code ∉ mapKeys l →
      List.lookup code (l ++ [(code, d)]) = some d := by
    intro l
    induction l with
    | nil => intro _; simp [List.lookup]
    | cons e l ih =>
      intro hl
      obtain ⟨k, v⟩ := e
      have hk : ¬ k = code := fun hk => hl (by simp [mapKeys, hk])
      have hl' : code ∉ mapKeys l := fun hc => hl (by
        unfold mapKeys at hc ⊢
        exact List.mem_cons_of_mem _ hc)
      have h2 : (code == k) = false := beq_eq_false_iff_ne.mpr (fun h => hk h.symm)
      rw [List.cons_append, List.lookup_cons, h2]
      exact ih hl'
  exact hnone _ (not_mem_keys_mapDelete code m)

theorem set_delete_perm (code : String) (d : Department) (m : SelectionStore)
    (hnodup : (mapKeys m).Nodup) (hget : mapGet m code = some d) :
    (mapSet code d (mapDelete code m)).Perm m := by
  induction m with
  | nil => simp [mapGet, List.lookup] at hget
  | cons e m ih =>
    obtain ⟨k, v⟩ := e
    have hnd : k ∉ mapKeys m ∧ (mapKeys m).Nodup := by
      unfold mapKeys at hnodup ⊢
      exact List.nodup_cons.mp hnodup
    by_cases hk : k = code
    · subst hk
      have hv : v = d := by
        unfold mapGet at hget
        rw [List.lookup_cons, beq_self_eq_true] at hget
        exact Option.some.inj hget
      subst hv
      have h1 : mapDelete k ((k, v) :: m) = mapDelete k m := by simp [mapDelete]
      rw [h1, mapDelete_absent k m hnd.1, mapSet_absent k v m hnd.1]
      exact List.perm_append_singleton (k, v) m
    · have h1 : mapDelete code ((k, v) :: m) = (k, v) :: mapDelete code m := by
        simp [mapDelete, hk]
      have h2 : mapSet code d ((k, v) :: mapDelete code m)
          = (k, v) :: mapSet code d (mapDelete code m) := by
        simp [mapSet, hk]
      have h3 : (code == k) = false := beq_eq_false_iff_ne.mpr (fun h => hk h.symm)
      have hget' : mapGet m code = some d := by
        unfold mapGet at hget ⊢
        rw [List.lookup_cons, h3] at hget
        exact hget
      rw [h1, h2]
      exact List.Perm.cons _ (ih hnd.2 hget')

/-- C3: after any sequence of `addDepartment` calls from the empty store and empty
field, every added code is in the store, the hidden field is the comma-joined list of
the store's keys, these keys are pairwise distinct and are exactly the added codes, and
adding any of them again changes nothing on the page. -/
theorem addDepartment_sequence_field (adds : List (String × String)) :
    (∀ a ∈ adds, mapHas (addAll adds Page.initial).selectedDepartments a.1 = true) ∧
    (addAll adds Page.initial).hiddenField
      = joinComma (mapKeys (addAll adds Page.initial).selectedDepartments) ∧
    (mapKeys (addAll adds Page.initial).selectedDepartments).Nodup ∧
    (∀ code, code ∈ mapKeys (addAll adds Page.initial).selectedDepartments
      ↔ code ∈ adds.map Prod.fst) ∧
    (∀ a ∈ adds, ∀ name,
      addDepartment a.1 name (addAll adds Page.initial) = addAll adds Page.initial) := by
  have hsync := addAll_synced adds Page.initial initial_synced
  have hmem : ∀ code, code ∈ mapKeys (addAll adds Page.initial).selectedDepartments
      ↔ code ∈ adds.map Prod.fst := by
    intro code
    rw [mem_keys_addAll]
    simp [Page.initial, mapKeys]
  refine ⟨?_, hsync.1, hsync.2, hmem, ?_⟩
  · intro a ha
    exact (mapHas_iff_mem_keys _ _).mpr ((hmem a.1).mpr (List.mem_map_of_mem Prod.fst ha))
  · intro a ha name
    exact addDepartment_present _ _ _ ((hmem a.1).mpr (List.mem_map_of_mem Prod.fst ha))

/-- C4: in every state reached from the empty store and empty field by the four
mutations, the hidden field is the comma-joined list of the store's keys; and
`clearAllSelections` then leaves a store of size 0 and an empty field. -/
theorem hiddenField_mirrors_store (ms : List Mutation) :
    (runMutations ms Page.initial).hiddenField
      = joinComma (mapKeys (runMutations ms Page.initial).selectedDepartments) ∧
    (clearAllSelections (runMutations ms Page.initial)).selectedDepartments.length = 0 ∧
    (clearAllSelections (runMutations ms Page.initial)).hiddenField = "" := by
  refine ⟨(runMutations_synced ms Page.initial initial_synced).1, ?_, ?_⟩
  · unfold clearAllSelections showNotification
    simp only [updateSelectedList_store, List.length_nil]
  · rfl

/-- C5: removing a code the store does not hold leaves the store as it was; and for a
store with distinct keys that maps the code to `{code, name}`, removing the code and
adding it back under that name gives a store with the same entries (the re-added
entry now being the last in iteration order) and the same value for every key. -/
theorem removeDepartment_then_addDepartment (p : Page) (code name : String) :
    (mapHas p.selectedDepartments code = false →
      (removeDepartment code p).selectedDepartments = p.selectedDepartments) ∧
    ((mapKeys p.selectedDepartments).Nodup →
      mapGet p.selectedDepartments code = some ⟨code, name⟩ →
      (addDepartment code name (removeDepartment code p)).selectedDepartments.Perm
          p.selectedDepartments ∧
        ∀ c, mapGet (addDepartment code name (removeDepartment code p)).selectedDepartments c
          = mapGet p.selectedDepartments c) := by
  have hstore : (removeDepartment code p).selectedDepartments
      = mapDelete code p.selectedDepartments := by
    unfold removeDepartment
    simp only [updateSelectedList_store]
  constructor
  · intro h
    rw [hstore]
    apply mapDelete_absent
    intro hc
    rw [(mapHas_iff_mem_keys _ _).mpr hc] at h
    exact Bool.noConfusion h
  · intro hnodup hget
    have habs : code ∉ mapKeys (removeDepartment code p).selectedDepartments := by
      rw [hstore]
      exact not_mem_keys_mapDelete code _
    have hadd := addDepartment_store_absent code name _ habs
    rw [hstore, ← mapSet_absent code ⟨code, name⟩ _ (not_mem_keys_mapDelete code _)] at hadd
    rw [hadd]
    refine ⟨set_delete_perm code _ _ hnodup hget, ?_⟩
    intro c
    by_cases hc : c = code
    · subst hc
      rw [lookup_set_delete_self, hget]
    · exact lookup_set_delete_ne code c _ _ hc

/-- C5 witness: on the store holding 93, 2A, 01, 2B, 75, removing the absent code 99
changes nothing, and removing then re-adding 2A gives back the same entries. -/
theorem removeDepartment_then_addDepartment_witness :
    (mapHas sortExamplePage.selectedDepartments "99" = false ∧
      (removeDepartment "99" sortExamplePage).selectedDepartments
        = sortExamplePage.selectedDepartments) ∧
    ((mapKeys sortExamplePage.selectedDepartments).Nodup ∧
      mapGet sortExamplePage.selectedDepartments "2A" = some ⟨"2A", "Corse-du-Sud"⟩ ∧
      (addDepartment "2A" "Corse-du-Sud"
          (removeDepartment "2A" sortExamplePage)).selectedDepartments.Perm
        sortExamplePage.selectedDepartments) :=
  ⟨⟨by decide,
      (removeDepartment_then_addDepartment sortExamplePage "99" "").1 (by decide)⟩,
    by decide, by decide,
    ((removeDepartment_then_addDepartment sortExamplePage "2A" "Corse-du-Sud").2
      (by decide) (by decide)).1⟩

/-- C6: `selectPredefined` on the empty store gives a store whose keys are exactly
75, 77, 78, 91, 92, 93, 94, 95, each mapped to `{code, name}` with the name the catalog
`frenchDepartments` gives for the code. -/
theorem selectPredefined_initial :
    mapKeys (selectPredefined Page.initial).selectedDepartments
      = ["75", "77", "78", "91", "92", "93", "94", "95"] ∧
    (∀ code ∈ ["75", "77", "78", "91", "92", "93", "94", "95"],
      (catalogName code).isSome = true ∧
      mapGet (selectPredefined Page.initial).selectedDepartments code
        = (catalogName code).map (fun name => ⟨code, name⟩)) ∧
    (selectPredefined Page.initial).selectedDepartments
      = [("75", ⟨"75", "Paris"⟩), ("77", ⟨"77", "Seine-et-Marne"⟩),
         ("78", ⟨"78", "Yvelines"⟩), ("91", ⟨"91", "Essonne"⟩),
         ("92", ⟨"92", "Hauts-de-Seine"⟩), ("93", ⟨"93", "Seine-Saint-Denis"⟩),
         ("94", ⟨"94", "Val-de-Marne"⟩), ("95", ⟨"95", "Val-d'Oise"⟩)] := by
  decide

/-! ### Submission -/

/-- C7: the submit handler sends `POST /process` exactly when the hidden department
field is not empty and a keyword is present (a checked box, or custom text that is not
empty once trimmed); with an empty department field it only shows the department
notification, whatever the keywords are. -/
theorem submitHandler_posts_iff (f : FormInput) :
    ((submitHandler f).isPosted = true ↔
      f.selectedDepts ≠ "" ∧
        (f.selectedKeywords ≠ [] ∨ jsTrim f.customKeywordsValue ≠ "")) ∧
    submitHandler { f with selectedDepts := "" }
      = .rejected "Veuillez sélectionner au moins un département!" "info" := by
  constructor
  · unfold submitHandler
    by_cases hd : f.selectedDepts = ""
    · simp [hd, Submission.isPosted]
    · by_cases hk : f.selectedKeywords = []
      · by_cases hc : jsTrim f.customKeywordsValue = ""
        · simp [hd, hk, hc, Submission.isPosted]
        · simp [hd, hk, hc, Submission.isPosted]
      · have hlen : ¬ f.selectedKeywords.length = 0 := fun h => hk (List.length_eq_zero.mp h)
        simp [hd, hk, hlen, Submission.isPosted]
  · unfold submitHandler
    simp

/-! ### Results -/

theorem mem_replaceAll {c x : Char} {r t : String} (h : x ∈ (replaceAll c r t).data) :
    x ∈ r.data ∨ (x ∈ t.data ∧ x ≠ c) := by
  unfold replaceAll at h
  simp only [List.mem_flatMap] at h
  obtain ⟨y, hy, hx⟩ := h
  by_cases hc : y = c
  · rw [if_pos hc] at hx
    exact Or.inl hx
  · rw [if_neg hc, List.mem_singleton] at hx
    subst hx
    exact Or.inr ⟨hy, hc⟩


/-- The output of `escapeHtml` holds none of the characters `<`, `>`, `"`, `'`. -/
theorem escapeHtml_no_raw (text : String) :
    ∀ x ∈ (escapeHtml text).data, isRawMarkup x = false := by
  intro x hx
  unfold escapeHtml at hx
  have hrep : ∀ r ∈ ["&#039;", "&quot;", "&gt;", "&lt;", "&amp;"],
      ∀ y ∈ r.data, isRawMarkup y = false := by decide
  rcases mem_replaceAll hx with h | ⟨h5, n5⟩
  · exact hrep _ (by simp) x h
  rcases mem_replaceAll h5 with h | ⟨h4, n4⟩
  · exact hrep _ (by simp) x h
  rcases mem_replaceAll h4 with h | ⟨h3, n3⟩
  · exact hrep _ (by simp) x h
  rcases mem_replaceAll h3 with h | ⟨h2, n2⟩
  · exact hrep _ (by simp) x h
  unfold isRawMarkup
  simp [n5, n4, n3, n2]

/-- C2, evaluated: a `Visite Obligatoire` or a `PDF Link` holding `<script>` reaches the
table markup as it is, while the same text in `Keywords` is escaped. -/
theorem updateResultsTable_unescaped_fields :
    occursIn "<script>".data
        (updateResultsTable (snapshot "completed" 1 1 (some [visiteScriptRow]))).data = true ∧
    occursIn "<script>".data
        (updateResultsTable (snapshot "completed" 1 1 (some [linkScriptRow]))).data = true ∧
    occursIn "<script>".data
        (updateResultsTable (snapshot "completed" 1 1 (some [keywordsScriptRow]))).data
      = false := by
  decide!

theorem jsTrim_empty : jsTrim "" = "" := by
  decide

theorem hasLots_eq_lotsNonBlank (row : ResultRow) : hasLots row = lotsNonBlank row := by
  unfold hasLots lotsNonBlank
  cases row.Lots with
  | none => rfl
  | some lots =>
    by_cases h : lots = ""
    · subst h
      simp [jsTrim_empty]
    · simp [h]

/-- C10, as amended: `total` is the number of rows of `summary_table` (0 when it is
missing), `lotsFound` the number of rows whose `Lots` is present and not empty once
trimmed, `visiteObligatoire` the number of rows whose `Visite Obligatoire` is `yes`;
two rows, one of them with an empty `Lots`, give `total = 2` and `lotsFound = 1`. -/
theorem showResults_stats (progress : Progress) :
    (showResults progress).stats.total = (progress.summary_table.getD []).length ∧
    (showResults { progress with summary_table := none }).stats.total = 0 ∧
    (showResults progress).stats.lotsFound
      = (progress.summary_table.getD []).countP lotsNonBlank ∧
    (showResults progress).stats.visiteObligatoire
      = (progress.summary_table.getD []).countP
          (fun row => decide (row.VisiteObligatoire = some "yes")) ∧
    (showResults (snapshot "completed" 4 4 (some [lotsRow, emptyLotsRow]))).stats
      = { total := 2, lotsFound := 1, visiteObligatoire := 1 } := by
  refine ⟨rfl, rfl, ?_, ?_, by decide⟩
  · unfold showResults computeStats
    simp only [List.countP_eq_length_filter]
    congr 2
    funext row
    exact hasLots_eq_lotsNonBlank row
  · unfold showResults computeStats
    simp only [List.countP_eq_length_filter]
    rfl

/-- C10 counterexample: a single row whose `Lots` is one space has a non-empty `Lots`,
yet `lotsFound` is 0. -/
theorem showResults_lotsFound_counterexample :
    (showResults (snapshot "completed" 1 1 (some [blankLotsRow]))).stats.lotsFound = 0 ∧
    ([blankLotsRow].filter
      (fun row => decide (row.Lots ≠ none ∧ row.Lots ≠ some ""))).length = 1 := by
  decide

/-! ### Poller -/

theorem runTicks_append (a b : List (Option Progress)) (s : Tracking) :
    runTicks (a ++ b) s = runTicks b (runTicks a s) := by
  unfold runTicks
  rw [List.foldl_append]

theorem runTicks_eq_runEvents (rs : List (Option Progress)) (s : Tracking) :
    runTicks rs s = runEvents (sequentialEvents rs) s := by
  induction rs generalizing s with
  | nil => rfl
  | cons r rs ih =>
    have h := ih (pollTick r s)
    unfold runTicks runEvents sequentialEvents at h ⊢
    rw [List.foldl_cons, h]
    rfl

theorem pollTick_idle (r : Option Progress) (s : Tracking)
    (h : s.intervalActive = false) (hfl : s.inFlight = 0) : pollTick r s = s := by
  unfold pollTick fireTick settleTick
  simp [h, hfl]

theorem runTicks_idle (rs : List (Option Progress)) (s : Tracking)
    (h : s.intervalActive = false) (hfl : s.inFlight = 0) : runTicks rs s = s := by
  induction rs with
  | nil => rfl
  | cons r rs ih =>
    unfold runTicks at ih ⊢
    rw [List.foldl_cons, pollTick_idle r s h hfl]
    exact ih

theorem pollTick_nonterminal (r : Option Progress) (s : Tracking)
    (hact : s.intervalActive = true) (hfl : s.inFlight = 0) (h : isTerminal r = false) :
    (pollTick r s).intervalActive = true ∧ (pollTick r s).inFlight = 0 ∧
      (pollTick r s).requests = s.requests + 1 ∧ (pollTick r s).results = s.results := by
  unfold pollTick fireTick settleTick
  cases r with
  | none => simp [hact, hfl]
  | some progress =>
    unfold isTerminal at h
    simp only [Bool.or_eq_false_iff, decide_eq_false_iff_not] at h
    simp [hact, hfl, h.1, h.2]

theorem runTicks_nonterminal (rs : List (Option Progress)) (s : Tracking)
    (hact : s.intervalActive = true) (hfl : s.inFlight = 0)
    (h : ∀ r ∈ rs, isTerminal r = false) :
    (runTicks rs s).intervalActive = true ∧ (runTicks rs s).inFlight = 0 ∧
      (runTicks rs s).requests = s.requests + rs.length ∧
      (runTicks rs s).results = s.results := by
  induction rs generalizing s with
  | nil => exact ⟨hact, hfl, rfl, rfl⟩
  | cons r rs ih =>
    have h1 := pollTick_nonterminal r s hact hfl (h r (List.mem_cons_self r rs))
    have h2 := ih (pollTick r s) h1.1 h1.2.1 (fun x hx => h x (List.mem_cons_of_mem r hx))
    unfold runTicks at h2 ⊢
    rw [List.foldl_cons]
    refine ⟨h2.1, h2.2.1, ?_, ?_⟩
    · rw [h2.2.2.1, h1.2.2.1, List.length_cons]
      omega
    · rw [h2.2.2.2, h1.2.2.2]

theorem pollTick_terminal (progress : Progress) (s : Tracking)
    (hact : s.intervalActive = true) (hfl : s.inFlight = 0)
    (h : isTerminal (some progress) = true) :
    (pollTick (some progress) s).intervalActive = false ∧
      (pollTick (some progress) s).inFlight = 0 ∧
      (pollTick (some progress) s).requests = s.requests + 1 ∧
      (pollTick (some progress) s).display = updateProgressDisplay progress s.display ∧
      (pollTick (some progress) s).results
        = if progress.status = "completed" then some (showResults progress)
          else s.results := by
  unfold pollTick fireTick settleTick
  unfold isTerminal at h
  simp only [Bool.or_eq_true, decide_eq_true_eq] at h
  by_cases hc : progress.status = "completed"
  · simp [hact, hfl, hc]
  · have he : progress.status = "error" := h.resolve_left hc
    simp [hact, hfl, hc, he]

theorem pollTick_none (s : Tracking) :
    (pollTick none s).display = s.display ∧
      (pollTick none s).intervalActive = s.intervalActive ∧
      (pollTick none s).results = s.results := by
  unfold pollTick fireTick settleTick
  cases hs : s.intervalActive <;> by_cases hfl : s.inFlight = 0 <;> simp [hfl, hs]

theorem event_cleared (e : PollEvent) (s : Tracking) (h : s.intervalActive = false) :
    (e.apply s).requests = s.requests ∧ (e.apply s).intervalActive = false := by
  cases e with
  | fire =>
    unfold PollEvent.apply fireTick
    simp [h]
  | settle response =>
    unfold PollEvent.apply settleTick
    by_cases hfl : s.inFlight = 0
    · simp [hfl, h]
    · cases response with
      | none => simp [hfl, h]
      | some progress =>
        simp only [hfl, if_false]
        split
        · exact ⟨rfl, rfl⟩
        · split
          · exact ⟨rfl, rfl⟩
          · exact ⟨rfl, h⟩

theorem runEvents_cleared (events : List PollEvent) (s : Tracking)
    (h : s.intervalActive = false) :
    (runEvents events s).requests = s.requests ∧
      (runEvents events s).intervalActive = false := by
  induction events generalizing s with
  | nil => exact ⟨rfl, h⟩
  | cons e events ih =>
    have h1 := event_cleared e s h
    have h2 := ih (e.apply s) h1.2
    unfold runEvents at h2 ⊢
    rw [List.foldl_cons]
    exact ⟨h2.1.trans h1.1, h2.2⟩

/-- C8, as amended: a failed tick changes neither the display nor the interval nor the
results. When each response is handled before the next tick fires: while no tick has
seen `completed` or `error` the poller keeps running, one request a tick; at the first
tick that sees `completed` or `error` the interval is cleared, every later tick leaves
the whole state as it is (no request, no display update), and results are rendered
exactly when that status is `completed`. When requests overlap: once the interval is
cleared no further request is sent, whatever the events that follow. -/
theorem poller_stops_at_first_terminal (display : ProgressDisplay)
    (before after : List (Option Progress)) (progress : Progress) (s : Tracking)
    (events : List PollEvent) :
    ((pollTick none s).display = s.display ∧
      (pollTick none s).intervalActive = s.intervalActive ∧
      (pollTick none s).results = s.results) ∧
    runTicks (before ++ some progress :: after) (startProgressTracking display)
      = runEvents (sequentialEvents (before ++ some progress :: after))
          (startProgressTracking display) ∧
    ((∀ r ∈ before, isTerminal r = false) →
      (runTicks before (startProgressTracking display)).intervalActive = true ∧
      (runTicks before (startProgressTracking display)).requests = before.length ∧
      (runTicks before (startProgressTracking display)).results = none) ∧
    ((∀ r ∈ before, isTerminal r = false) → isTerminal (some progress) = true →
      runTicks (before ++ some progress :: after) (startProgressTracking display)
        = runTicks (before ++ [some progress]) (startProgressTracking display) ∧
      (runTicks (before ++ some progress :: after)
        (startProgressTracking display)).intervalActive = false ∧
      (runTicks (before ++ some progress :: after)
        (startProgressTracking display)).requests = before.length + 1 ∧
      (runTicks (before ++ some progress :: after)
        (startProgressTracking display)).display
          = updateProgressDisplay progress
              (runTicks before (startProgressTracking display)).display ∧
      (runTicks (before ++ some progress :: after)
        (startProgressTracking display)).results
          = if progress.status = "completed" then some (showResults progress) else none) ∧
    (s.intervalActive = false →
      (runEvents events s).requests = s.requests ∧
      (runEvents events s).intervalActive = false) := by
  have hstart : (startProgressTracking display).intervalActive = true := rfl
  have hstart0 : (startProgressTracking display).inFlight = 0 := rfl
  refine ⟨pollTick_none s, runTicks_eq_runEvents _ _, ?_, ?_, runEvents_cleared events s⟩
  · intro hb
    have h := runTicks_nonterminal before _ hstart hstart0 hb
    refine ⟨h.1, ?_, ?_⟩
    · rw [h.2.2.1]
      show 0 + before.length = before.length
      omega
    · rw [h.2.2.2]
      rfl
  · intro hb ht
    have h := runTicks_nonterminal before _ hstart hstart0 hb
    have hp := pollTick_terminal progress _ h.1 h.2.1 ht
    have hone : runTicks (before ++ [some progress]) (startProgressTracking display)
        = pollTick (some progress) (runTicks before (startProgressTracking display)) := by
      rw [runTicks_append]
      rfl
    have hall : runTicks (before ++ some progress :: after) (startProgressTracking display)
        = runTicks (before ++ [some progress]) (startProgressTracking display) := by
      have hsplit : before ++ some progress :: after
          = (before ++ [some progress]) ++ after := by simp
      rw [hsplit, runTicks_append, hone]
      exact runTicks_idle after _ hp.1 hp.2.1
    rw [hall, hone]
    refine ⟨rfl, hp.1, ?_, hp.2.2.2.1, ?_⟩
    · rw [hp.2.2.1, h.2.2.1]
      show 0 + before.length + 1 = before.length + 1
      omega
    · rw [hp.2.2.2.2, h.2.2.2]
      rfl

/-- C8 witness: after a failed fetch and a running snapshot, a completed snapshot clears
the interval after 3 requests, the later ticks change nothing, and results are shown;
and from that state no event sends a request. -/
theorem poller_stops_at_first_terminal_witness :
    (∀ r ∈ ticksBefore, isTerminal r = false) ∧
    isTerminal (some completedSnapshot) = true ∧
    (runTicks (ticksBefore ++ some completedSnapshot :: ticksAfter)
        (startProgressTracking ProgressDisplay.blank)
      = runTicks (ticksBefore ++ [some completedSnapshot])
        (startProgressTracking ProgressDisplay.blank) ∧
    (runTicks (ticksBefore ++ some completedSnapshot :: ticksAfter)
      (startProgressTracking ProgressDisplay.blank)).intervalActive = false ∧
    (runTicks (ticksBefore ++ some completedSnapshot :: ticksAfter)
      (startProgressTracking ProgressDisplay.blank)).requests = ticksBefore.length + 1 ∧
    (runTicks (ticksBefore ++ some completedSnapshot :: ticksAfter)
      (startProgressTracking ProgressDisplay.blank)).display
        = updateProgressDisplay completedSnapshot
            (runTicks ticksBefore (startProgressTracking ProgressDisplay.blank)).display ∧
    (runTicks (ticksBefore ++ some completedSnapshot :: ticksAfter)
      (startProgressTracking ProgressDisplay.blank)).results
        = if completedSnapshot.status = "completed" then some (showResults completedSnapshot)
          else none) ∧
    ((runTicks (ticksBefore ++ [some completedSnapshot])
        (startProgressTracking ProgressDisplay.blank)).intervalActive = false ∧
      (runEvents overlappingEvents
        (runTicks (ticksBefore ++ [some completedSnapshot])
          (startProgressTracking ProgressDisplay.blank))).requests
        = (runTicks (ticksBefore ++ [some completedSnapshot])
          (startProgressTracking ProgressDisplay.blank)).requests) :=
  ⟨by decide, by decide,
    (poller_stops_at_first_terminal ProgressDisplay.blank ticksBefore ticksAfter
      completedSnapshot (startProgressTracking ProgressDisplay.blank) []).2.2.2.1
      (by decide) (by decide),
    by decide!,
    ((poller_stops_at_first_terminal ProgressDisplay.blank ticksBefore ticksAfter
      completedSnapshot
      (runTicks (ticksBefore ++ [some completedSnapshot])
        (startProgressTracking ProgressDisplay.blank)) overlappingEvents).2.2.2.2
      (by decide!)).1⟩

/-- C8 counterexample: two requests overlap. The response handled first is `completed`:
the interval is cleared and the bar shows 100%. The response of the other request, a
running snapshot with 3 of 4, is handled afterwards and sets the bar to 75%: the
display is updated after the first terminal tick. -/
theorem poller_overlap_counterexample :
    (runEvents (overlappingEvents.take 3)
      (startProgressTracking ProgressDisplay.blank)).intervalActive = false ∧
    (runEvents (overlappingEvents.take 3)
      (startProgressTracking ProgressDisplay.blank)).display.barWidth = "100%" ∧
    (runEvents overlappingEvents
      (startProgressTracking ProgressDisplay.blank)).display.barWidth = "75%" ∧
    (runEvents overlappingEvents (startProgressTracking ProgressDisplay.blank)).display
      ≠ (runEvents (overlappingEvents.take 3)
        (startProgressTracking ProgressDisplay.blank)).display := by
  decide!

/-! ### Percentage -/

theorem percentOf_zero (t : ℤ) : percentOf 0 t = 0 := by
  unfold percentOf jsMul jsDiv mathRound
  simp only [Int.cast_zero, zero_div, toDouble_zero, zero_mul, zero_add]
  rw [Int.floor_eq_iff]
  norm_num

theorem percentOf_near (p t : ℤ) (hp : 0 < p) (ht : 0 < t) :
    |(percentOf p t : ℚ) - 100 * ((p : ℚ) / t)| ≤ 1 / 2 + 300 * ((p : ℚ) / t) / 2 ^ 53 := by
  have hP : (0 : ℚ) < p := by exact_mod_cast hp
  have hT : (0 : ℚ) < t := by exact_mod_cast ht
  have hx : (0 : ℚ) < (p : ℚ) / t := div_pos hP hT
  unfold percentOf jsMul jsDiv mathRound
  set x : ℚ := (p : ℚ) / t with hxdef
  have e1 := abs_le.mp (toDouble_err x hx)
  have hx1 : 0 < toDouble x := by
    have : x / 2 ^ 53 < x := by
      rw [div_lt_iff₀ (by positivity)]
      nlinarith
    linarith [e1.1]
  have hy : 0 < toDouble x * 100 := by positivity
  have e2 := abs_le.mp (toDouble_err (toDouble x * 100) hy)
  set y : ℚ := toDouble x * 100 with hydef
  set v : ℚ := toDouble y with hvdef
  have hn1 : ((⌊v + 1 / 2⌋ : ℤ) : ℚ) ≤ v + 1 / 2 := Int.floor_le _
  have hn2 : v + 1 / 2 < ((⌊v + 1 / 2⌋ : ℤ) : ℚ) + 1 := Int.lt_floor_add_one _
  have hxs : x / 2 ^ 53 ≤ x := by
    rw [div_le_iff₀ (by positivity)]
    nlinarith
  have hyb : y ≤ 200 * x := by
    rw [hydef]
    linarith [e1.2]
  have hyd : y / 2 ^ 53 ≤ 200 * x / 2 ^ 53 :=
    div_le_div_of_nonneg_right hyb (by positivity)
  have h100 : 100 * (x / 2 ^ 53) = 100 * x / 2 ^ 53 := by ring
  have h300 : 300 * x / 2 ^ 53 = 200 * x / 2 ^ 53 + 100 * x / 2 ^ 53 := by ring
  rw [abs_le]
  constructor
  · linarith [e1.1, e2.1]
  · linarith [e1.2, e2.2]

theorem percentOf_nearest (p t : ℤ) (hp : 0 ≤ p) (hp' : p < 2 ^ 43) (ht : 0 < t) :
    2 * |percentOf p t * t - 100 * p| ≤ t := by
  rcases eq_or_lt_of_le hp with h0 | hpos
  · rw [← h0, percentOf_zero]
    simp
    exact le_of_lt ht
  · have hP : (0 : ℚ) < p := by exact_mod_cast hpos
    have hT : (0 : ℚ) < t := by exact_mod_cast ht
    have hPb : (p : ℚ) < 2 ^ 43 := by exact_mod_cast hp'
    have hnear := percentOf_near p t hpos ht
    have hmul : |(percentOf p t : ℚ) * t - 100 * p|
        = |(percentOf p t : ℚ) - 100 * ((p : ℚ) / t)| * t := by
      have : (percentOf p t : ℚ) * t - 100 * p
          = ((percentOf p t : ℚ) - 100 * ((p : ℚ) / t)) * t := by
        field_simp
      rw [this, abs_mul, abs_of_pos hT]
    have hb : |(percentOf p t : ℚ) * t - 100 * p|
        ≤ (1 / 2 + 300 * ((p : ℚ) / t) / 2 ^ 53) * t := by
      rw [hmul]
      exact mul_le_mul_of_nonneg_right hnear (le_of_lt hT)
    have hb2 : (1 / 2 + 300 * ((p : ℚ) / t) / 2 ^ 53) * t = t / 2 + 300 * p / 2 ^ 53 := by
      field_simp
      ring
    have hsmall : 300 * (p : ℚ) / 2 ^ 53 < 1 / 2 := by
      rw [div_lt_iff₀ (by positivity)]
      norm_num
      norm_num at hPb
      linarith
    have hq : (2 : ℚ) * |(percentOf p t : ℚ) * t - 100 * p| < t + 1 := by
      rw [hb2] at hb
      linarith
    have hz : 2 * |percentOf p t * t - 100 * p| < t + 1 := by
      have : ((2 * |percentOf p t * t - 100 * p| : ℤ) : ℚ) < ((t + 1 : ℤ) : ℚ) := by
        push_cast
        exact hq
      exact_mod_cast this
    omega

theorem percentOf_one_four : percentOf 1 4 = 25 := by
  decide!

/-- C9, as amended: for a snapshot with `0 ≤ processed_records < 2^43` and
`0 < total_records < 2^53`, `updateProgressDisplay` writes `percent%` as the bar width
and `percent% (processed/total)` as the text, where `percent`, the value of
`Math.round((processed / total) * 100)` in double arithmetic, is an integer nearest to
`100 * processed / total` (at an exact half either neighbour); processed 1 of total 4
shows `25%`; and with `total_records = 0` the bar and the text are left as they were. -/
theorem updateProgressDisplay_percent (progress : Progress) (d : ProgressDisplay)
    (hp : 0 ≤ progress.processed_records) (hp' : progress.processed_records < 2 ^ 43)
    (ht : 0 < progress.total_records) (_ht' : progress.total_records < 2 ^ 53) :
    (updateProgressDisplay progress d).barWidth
      = toString (percentOf progress.processed_records progress.total_records) ++ "%" ∧
    (updateProgressDisplay progress d).progressText
      = toString (percentOf progress.processed_records progress.total_records) ++ "% ("
        ++ toString progress.processed_records ++ "/" ++ toString progress.total_records
        ++ ")" ∧
    2 * |percentOf progress.processed_records progress.total_records * progress.total_records
        - 100 * progress.processed_records| ≤ progress.total_records ∧
    (updateProgressDisplay (snapshot "running" 1 4 none) d).barWidth = "25%" ∧
    (updateProgressDisplay (snapshot "running" 1 4 none) d).progressText = "25% (1/4)" ∧
    (updateProgressDisplay { progress with total_records := 0 } d).barWidth = d.barWidth ∧
    (updateProgressDisplay { progress with total_records := 0 } d).progressText
      = d.progressText := by
  have hguard : progress.total_records > 0 ∧ progress.processed_records ≥ 0 := ⟨ht, hp⟩
  refine ⟨?_, ?_, percentOf_nearest _ _ hp hp' ht, ?_, ?_, ?_, ?_⟩
  · unfold updateProgressDisplay
    simp only [hguard, and_self, if_true]
  · unfold updateProgressDisplay
    simp only [hguard, and_self, if_true]
  · show toString (percentOf 1 4) ++ "%" = "25%"
    rw [percentOf_one_four]
    decide
  · show toString (percentOf 1 4) ++ "% (" ++ toString (1 : ℤ) ++ "/" ++ toString (4 : ℤ)
      ++ ")" = "25% (1/4)"
    rw [percentOf_one_four]
    decide
  · unfold updateProgressDisplay
    simp
  · unfold updateProgressDisplay
    simp

/-- C9 witness: the snapshot with processed 1 of total 4 meets the bounds. -/
theorem updateProgressDisplay_percent_witness :
    (updateProgressDisplay (snapshot "running" 1 4 none) ProgressDisplay.blank).barWidth
      = toString (percentOf 1 4) ++ "%" ∧
    2 * |percentOf 1 4 * 4 - 100 * 1| ≤ (4 : ℤ) :=
  ⟨(updateProgressDisplay_percent (snapshot "running" 1 4 none) ProgressDisplay.blank
      (by decide) (by decide) (by decide) (by decide)).1,
    (updateProgressDisplay_percent (snapshot "running" 1 4 none) ProgressDisplay.blank
      (by decide) (by decide) (by decide) (by decide)).2.2.1⟩

/-- C9 counterexample: processed 23 of total 40 is 57.5 percent, which rounds to 58, but
the double product `(23 / 40) * 100` lies just below 57.5 and the bar shows `57%`. -/
theorem updateProgressDisplay_round_counterexample :
    (updateProgressDisplay (snapshot "running" 23 40 none) ProgressDisplay.blank).barWidth
      = "57%" ∧
    round ((23 : ℚ) / 40 * 100) = (58 : ℤ) ∧
    jsMul (jsDiv 23 40) 100 < (23 : ℚ) / 40 * 100 := by
  decide!

/-! ### Map clicks -/

/-- C11, as amended: a click on a region whose code is not in the store adds the entry
`{code, name}` at the end of the store, and a click on a region whose code is already
in the store leaves the whole page (store, panel, hidden field) as it was. -/
theorem onFeatureClick_adds_only (p : Page) (feature : Feature) :
    (mapHas p.selectedDepartments feature.code = false →
      (onFeatureClick feature p).selectedDepartments
        = p.selectedDepartments ++ [(feature.code, ⟨feature.code, feature.nom⟩)] ∧
      mapHas (onFeatureClick feature p).selectedDepartments feature.code = true) ∧
    (mapHas p.selectedDepartments feature.code = true →
      onFeatureClick feature p = p ∧
      mapHas (onFeatureClick feature p).selectedDepartments feature.code = true) := by
  unfold onFeatureClick
  constructor
  · intro h
    have habs : feature.code ∉ mapKeys p.selectedDepartments := by
      intro hc
      rw [(mapHas_iff_mem_keys _ _).mpr hc] at h
      exact Bool.noConfusion h
    have hstore := addDepartment_store_absent feature.code feature.nom p habs
    refine ⟨hstore, ?_⟩
    rw [mapHas_iff_mem_keys]
    exact (mem_keys_addDepartment feature.code feature.nom feature.code p).mpr (Or.inr rfl)
  · intro h
    have hpres := addDepartment_present feature.code feature.nom p
      ((mapHas_iff_mem_keys _ _).mp h)
    refine ⟨hpres, ?_⟩
    show mapHas (addDepartment feature.code feature.nom p).selectedDepartments feature.code
      = true
    rw [hpres]
    exact h

/-- C11 witness: on the store holding 93, 2A, 01, 2B, 75, a click on region 13 appends
it, and a click on region 75 changes nothing. -/
theorem onFeatureClick_adds_only_witness :
    (mapHas sortExamplePage.selectedDepartments "13" = false ∧
      (onFeatureClick ⟨"13", "Bouches-du-Rhône"⟩ sortExamplePage).selectedDepartments
        = sortExamplePage.selectedDepartments
          ++ [("13", ⟨"13", "Bouches-du-Rhône"⟩)]) ∧
    (mapHas sortExamplePage.selectedDepartments "75" = true ∧
      onFeatureClick ⟨"75", "Paris"⟩ sortExamplePage = sortExamplePage) :=
  ⟨⟨by decide,
      ((onFeatureClick_adds_only sortExamplePage ⟨"13", "Bouches-du-Rhône"⟩).1
        (by decide)).1⟩,
    by decide,
    ((onFeatureClick_adds_only sortExamplePage ⟨"75", "Paris"⟩).2 (by decide)).1⟩

/-- C11 counterexample: the store holding 93, 2A, 01, 2B, 75 contains 75, and after a
click on region 75 it still contains 75, with the same five keys. -/
theorem onFeatureClick_toggle_counterexample :
    mapHas sortExamplePage.selectedDepartments "75" = true ∧
    mapHas (onFeatureClick ⟨"75", "Paris"⟩ sortExamplePage).selectedDepartments "75" = true ∧
    mapKeys (onFeatureClick ⟨"75", "Paris"⟩ sortExamplePage).selectedDepartments
      = ["93", "2A", "01", "2B", "75"] := by
  decide

end App
